import Mathlib

/-!
Verification of the pytest-isolated plugin's reconciliation core.

This file shallowly embeds the plugin's data model and operations
(`src/pytest_isolated/execution.py`, `reporting.py`, `grouping.py`,
`utils.py`, `config.py`) as executable Lean definitions and proves the
frozen claims about them.

Modelling conventions:
- Python dicts are association lists with dict semantics (update in
  place, insertion order preserved, at most one entry per key).
- `json.loads` (the standard library) is an abstract parameter
  `jsonLoads : String → Except String TestRecord`: on a malformed line
  it returns `.error` (modelling a raised `json.JSONDecodeError`), on a
  well-formed line the typed record.  `_parse_results` itself has no
  exception handler around `json.loads`, which the embedding mirrors by
  propagating the `.error` value.
- Machine floats that are only carried through (the `duration` field)
  are modelled as `Rat`; the code never computes with them.
- A missing side-channel file is `none`; an existing file is the list
  of its lines.
-/

/-- The three test phases (`when` field of a report). -/
inductive Phase where
  | setup : Phase
  | call : Phase
  | teardown : Phase
deriving DecidableEq, Repr

/-- A test outcome (`outcome` field of a report). -/
inductive Outcome where
  | passed : Outcome
  | failed : Outcome
  | skipped : Outcome
deriving DecidableEq, Repr

/-- One side-channel record, the `_TestRecord` TypedDict of `utils.py`
(the dict written by `pytest_runtest_logreport` in `reporting.py`).
`user_properties` values (`Any` in Python) are modelled by their JSON
text. -/
structure TestRecord where
  nodeid : String
  when : Phase
  outcome : Outcome
  longrepr : String
  duration : Rat
  stdout : String
  stderr : String
  keywords : List String
  sections : List (String × String)
  user_properties : List (String × String)
  wasxfail : Bool
deriving DecidableEq, Repr

/-- Per-test mapping from phase to record (`results[nodeid]` in
`_parse_results`). -/
abbrev PhaseMap := List (Phase × TestRecord)

/-- `dict[nodeid][phase]` structure built by `_parse_results`
(`TestResults` type alias in `execution.py`). -/
abbrev TestResults := List (String × PhaseMap)

/-- Dict lookup (`d.get(k)` / `d[k]`). -/
def alookup {α : Type} [DecidableEq α] {β : Type} : List (α × β) → α → Option β
  | [], _ => none
  | (k, v) :: rest, key => if k = key then some v else alookup rest key

/-- Dict membership (`k in d`). -/
def amem {α : Type} [DecidableEq α] {β : Type} (l : List (α × β)) (key : α) : Bool :=
  (alookup l key).isSome

/-- Dict update (`d[k] = v`): replaces in place, else appends,
preserving insertion order like a Python dict. -/
def aset {α : Type} [DecidableEq α] {β : Type} : List (α × β) → α → β → List (α × β)
  | [], key, v => [(key, v)]
  | (k, w) :: rest, key, v =>
    if k = key then (key, v) :: rest else (k, w) :: aset rest key v

/-- Dict removal (`d.pop(k, None)`): drops the entry for the key. -/
def aremove {α : Type} [DecidableEq α] {β : Type} (l : List (α × β)) (key : α) :
    List (α × β) :=
  l.filter (fun p => p.1 ≠ key)

/-- Python `str.strip()`: drop whitespace from both ends. -/
def pyStrip (s : String) : String :=
  String.mk (((s.toList.dropWhile Char.isWhitespace).reverse.dropWhile
    Char.isWhitespace).reverse)

/-- Body of `_parse_results`' loop: store one record under
`results[nodeid][when]`. -/
def storeRecord (results : TestResults) (r : TestRecord) : TestResults :=
  let phaseMap := (alookup results r.nodeid).getD []
  aset results r.nodeid (aset phaseMap r.when r)

/-- The line loop of `_parse_results` (`execution.py` lines 122-132):
blank lines are skipped; `json.loads` is applied to every other line and
its error, if any, propagates (there is no handler in the source). -/
def parseLines (jsonLoads : String → Except String TestRecord) :
    List String → TestResults → Except String TestResults
  | [], results => .ok results
  | line :: rest, results =>
    let fileLine := pyStrip line
    if fileLine = "" then parseLines jsonLoads rest results
    else
      match jsonLoads fileLine with
      | .error e => .error e
      | .ok r => parseLines jsonLoads rest (storeRecord results r)

/-- `_parse_results` (`execution.py` lines 116-135): a missing file
(`none`) yields an empty mapping; otherwise the lines are folded by
`parseLines`.  (The deletion of the file afterwards is an effect on the
file system, outside the returned value.) -/
def parseResults (jsonLoads : String → Except String TestRecord)
    (file : Option (List String)) : Except String TestResults :=
  match file with
  | none => .ok []
  | some lines => parseLines jsonLoads lines []

/-- A `json.loads` model that fails on its input, as the real
`json.loads` does on a line that is not valid JSON (e.g. `"not json"`
raises `json.JSONDecodeError: Expecting value`). -/
def jsonLoadsFailing : String → Except String TestRecord :=
  fun _ => .error "Expecting value"

/-- A pytest item as the reconciliation code observes it: its nodeid and
whether `item.get_closest_marker("xfail")` is set. -/
structure Item where
  nodeid : String
  xfail : Bool
deriving DecidableEq, Repr

/-- The argument tuple of one `_emit_report` call (`reporting.py` lines
113-157): the replayed/synthesized phase report handed to the host's
reporting hook. -/
structure Report where
  nodeid : String
  when : Phase
  outcome : Outcome
  longrepr : String
  duration : Rat
  stdout : String
  stderr : String
  sections : Option (List (String × String))
  user_properties : Option (List (String × String))
  wasxfail : Bool
deriving DecidableEq, Repr

/-- A single-quote character, written by code point to build Python
`repr` text. -/
def squote : String := String.mk [Char.ofNat 39]

/-- Python `f"{s!r}"` for the group-name strings used in messages. -/
def pyRepr (s : String) : String := squote ++ s ++ squote

/-- The synthesized passing setup report of `_emit_failure_for_items`
(`reporting.py` line 179). -/
def synthSetupRep (it : Item) : Report :=
  ⟨it.nodeid, .setup, .passed, "", 0, "", "", none, none, false⟩

/-- The synthesized passing teardown report of `_emit_failure_for_items`
(`reporting.py` lines 198-200). -/
def synthTeardownRep (it : Item) : Report :=
  ⟨it.nodeid, .teardown, .passed, "", 0, "", "", none, none, false⟩

/-- The synthesized call report of `_emit_failure_for_items`
(`reporting.py` lines 180-196): skipped with the expected-failure
indicator for an xfail item, else failed. -/
def synthCallRep (it : Item) (msg : String) : Report :=
  if it.xfail then ⟨it.nodeid, .call, .skipped, msg, 0, "", "", none, none, true⟩
  else ⟨it.nodeid, .call, .failed, msg, 0, "", "", none, none, false⟩

/-- The verbatim-or-synthesized setup report emitted for a crashed item
(`execution.py` lines 256-271): the recorded setup phase's outcome,
longrepr and duration when present, else a synthesized passing setup. -/
def setupRepOf (results : TestResults) (it : Item) : Report :=
  match alookup ((alookup results it.nodeid).getD []) Phase.setup with
  | some r => ⟨it.nodeid, .setup, r.outcome, r.longrepr, r.duration, "", "",
      none, none, false⟩
  | none => ⟨it.nodeid, .setup, .passed, "", 0, "", "", none, none, false⟩

/-- `results.pop(it.nodeid, None)` folded over a list of items
(`execution.py` lines 297-298 and 307-308). -/
def removeAll (results : TestResults) (its : List Item) : TestResults :=
  its.foldl (fun acc it => aremove acc it.nodeid) results

/-- The number of failed call phases in an emitted trace (in the source
every `session.testsfailed` increment is adjacent to the emission of a
failed call report). -/
def countFailedCalls (trace : List Report) : Nat :=
  (trace.filter
    (fun r => r.when == Phase.call && r.outcome == Outcome.failed)).length


/-- `_emit_failure_for_items` (`reporting.py` lines 160-201): per item a
passing setup, a call phase — skipped with the expected-failure
indicator when the item is marked xfail, else failed with the failure
counter bumped — and a passing teardown.  Returns the emitted reports
and the number of `session.testsfailed` increments. -/
def emitFailureForItems : List Item → String → (List Report × Nat)
  | [], _ => ([], 0)
  | it :: rest, msg =>
    let tail := emitFailureForItems rest msg
    let fails : Nat := if it.xfail then 0 else 1
    (synthSetupRep it :: synthCallRep it msg :: synthTeardownRep it :: tail.1,
     fails + tail.2)

/-- The text `f"signal {n}"` for a signal number `n`. -/
def signalText (n : Int) : String := "signal " ++ toString n

/-- The text `f"exit code {n}"`. -/
def exitCodeText (n : Int) : String := "exit code " ++ toString n

/-- The crash-as-expected message of `_handle_xfail_crash`
(`execution.py` lines 150-153):
`f"Subprocess crashed with signal {-returncode} (expected for xfail test)"`. -/
def xfailCrashMsg (returncode : Int) : String :=
  "Subprocess crashed with " ++ signalText (-returncode) ++
    " (expected for xfail test)"

/-- The text `f"timed out after {group_timeout} seconds"` that the
failure-message contract requires verbatim. -/
def timedOutText (groupTimeout : Int) : String :=
  "timed out after " ++ toString groupTimeout ++ " seconds"

/-- The timeout message of `_handle_timeout` (`execution.py` lines
169-174); `execTime` stands for the `f"{execution_time:.2f}"` text. -/
def timeoutMsg (groupName : String) (groupTimeout : Int) (execTime : String) : String :=
  "Subprocess group=" ++ pyRepr groupName ++ " " ++ timedOutText groupTimeout ++
    " (execution time: " ++ execTime ++ "s). Increase timeout with " ++
    "--isolated-timeout" ++ ", " ++ "isolated_timeout" ++ " ini, or " ++
    "@pytest.mark.isolated(timeout=N)" ++ "."

/-- The collection-crash message of `_handle_collection_crash`
(`execution.py` lines 191-197), stderr section included when the
stripped stderr text is non-empty. -/
def collectionCrashBase (groupName : String) (returncode : Int) : String :=
  "Subprocess group=" ++ pyRepr groupName ++ " exited with code " ++
    toString returncode ++ " and " ++ "produced no per-test report" ++
    ". The subprocess may have crashed during collection."

/-- The full collection-crash message: the base text, the stderr section
appended when the stripped stderr text is non-empty (`execution.py`
lines 196-197). -/
def collectionCrashMsg (groupName : String) (returncode : Int)
    (stderrText : String) : String :=
  if stderrText ≠ "" then
    collectionCrashBase groupName returncode ++ "\n\nSubprocess stderr:\n" ++
      stderrText
  else collectionCrashBase groupName returncode

/-- `_format_crash_reason` (`utils.py` lines 21-31): negative return
codes report `f"crashed with signal {-returncode}"`, others
`f"crashed with exit code {returncode}"`. -/
def formatCrashReason (returncode : Int) : String :=
  if returncode < 0 then "crashed with " ++ signalText (-returncode)
  else "crashed with " ++ exitCodeText returncode

/-- `_format_crash_message` (`utils.py` lines 34-53):
`f"Subprocess {reason} {context}."`, the stderr section appended when
the stderr text is non-empty. -/
def formatCrashMessage (returncode : Int) (context : String)
    (stderrText : String) : String :=
  if stderrText ≠ "" then
    "Subprocess " ++ formatCrashReason returncode ++ " " ++ context ++ "." ++
      "\n\nSubprocess stderr:\n" ++ stderrText
  else "Subprocess " ++ formatCrashReason returncode ++ " " ++ context ++ "."

/-- Substring containment: `sub` occurs contiguously in `s` (the message
contracts of the spec are stated with this). -/
def strHas (sub s : String) : Prop := sub.toList <:+: s.toList

instance (sub s : String) : Decidable (strHas sub s) := by
  unfold strHas; infer_instance

/-- `_handle_xfail_crash` (`execution.py` lines 138-156): fires only
when the exit code is negative, the result set is non-empty, and every
item in the group is marked xfail; `none` means "not handled". -/
def handleXfailCrash (returncode : Int) (results : TestResults)
    (items : List Item) : Option (List Report × Nat) :=
  if returncode < 0 ∧ results ≠ [] then
    if items.all (·.xfail) then
      some (emitFailureForItems items (xfailCrashMsg returncode))
    else none
  else none

/-- `_handle_timeout` (`execution.py` lines 159-177). -/
def handleTimeout (timedOut : Bool) (groupName : String) (groupTimeout : Int)
    (execTime : String) (items : List Item) : Option (List Report × Nat) :=
  if timedOut then
    some (emitFailureForItems items (timeoutMsg groupName groupTimeout execTime))
  else none

/-- `_handle_collection_crash` (`execution.py` lines 180-200). -/
def handleCollectionCrash (returncode : Int) (results : TestResults)
    (groupName : String) (stderrBytes : String) (items : List Item) :
    Option (List Report × Nat) :=
  if results = [] then
    some (emitFailureForItems items
      (collectionCrashMsg groupName returncode (pyStrip stderrBytes)))
  else none

/-- The per-item crash test of `_detect_crashed_tests` (`execution.py`
lines 210-218): recorded phases exist, no `call` phase, and the recorded
setup outcome is `passed` (an absent setup reads as `""`). -/
def crashedPred (results : TestResults) (it : Item) : Bool :=
  let nodeResults := (alookup results it.nodeid).getD []
  !nodeResults.isEmpty && !(amem nodeResults Phase.call) &&
    (match alookup nodeResults Phase.setup with
     | some r => r.outcome == Outcome.passed
     | none => false)

/-- `_detect_crashed_tests` (`execution.py` lines 203-230): the
never-run scan (members with no recorded phases at all) happens only
when at least one crashed test was found. -/
def detectCrashedTests (items : List Item) (results : TestResults) :
    List Item × List Item :=
  let crashed := items.filter (crashedPred results)
  let notRun :=
    if crashed.isEmpty then []
    else items.filter (fun it => ((alookup results it.nodeid).getD []).isEmpty)
  (crashed, notRun)

/-- The crashed-items loop of `_handle_mid_test_crash` (`execution.py`
lines 254-298): setup replayed verbatim (or synthesized passing), call
carrying the crash message (skipped+xfail or failed with a counter
bump), passing teardown, and the item's entry popped from the result
set. -/
def emitCrashedLoop (crashMsg : String) :
    List Item → TestResults → (List Report × Nat × TestResults)
  | [], results => ([], 0, results)
  | it :: rest, results =>
    let fails : Nat := if it.xfail then 0 else 1
    let results1 := aremove results it.nodeid
    let tail := emitCrashedLoop crashMsg rest results1
    (setupRepOf results it :: synthCallRep it crashMsg ::
      synthTeardownRep it :: tail.1,
     fails + tail.2.1, tail.2.2)

/-- `_handle_mid_test_crash` (`execution.py` lines 233-310).  Returns
(handled?, emitted reports, failure increments, updated result set). -/
def handleMidTestCrash (returncode : Int) (stderrBytes : String)
    (items : List Item) (results : TestResults) :
    Bool × List Report × Nat × TestResults :=
  let detected := detectCrashedTests items results
  let crashed := detected.1
  let notRun := detected.2
  if crashed.isEmpty && notRun.isEmpty then (false, [], 0, results)
  else
    let stderrText := pyStrip stderrBytes
    let afterCrashed :=
      if crashed.isEmpty then ([], 0, results)
      else emitCrashedLoop
        (formatCrashMessage returncode "during test execution" stderrText)
        crashed results
    let afterNotRun :=
      if notRun.isEmpty then ([], 0, afterCrashed.2.2)
      else
        let notRunMsg := "Test did not run - " ++
          formatCrashMessage returncode "during earlier test execution" stderrText
        let emitted := emitFailureForItems notRun notRunMsg
        (emitted.1, emitted.2,
         notRun.foldl (fun acc it => aremove acc it.nodeid) afterCrashed.2.2)
    (true, afterCrashed.1 ++ afterNotRun.1, afterCrashed.2.1 + afterNotRun.2.1,
     afterNotRun.2.2)

/-- The safety-net message of `_emit_all_results` (`execution.py` line
341). -/
def missingCallMsg (nodeid : String) : String :=
  "Missing " ++ squote ++ "call" ++ squote ++
    " phase result from subprocess for " ++ nodeid

/-- The per-phase replay of `_emit_all_results` for one recorded test
(`execution.py` lines 328-366). -/
def setupPassedIn (nodeResults : PhaseMap) : Bool :=
  match alookup nodeResults Phase.setup with
  | some r => r.outcome == Outcome.passed
  | none => false

/-- One pass of the `for when in phases` loop of `_emit_all_results`
(`execution.py` lines 334-366): a recorded phase is replayed with its
full metadata (failed call phases bump the counter); a missing call
phase after a passed setup is the safety-net failure; any other missing
phase contributes nothing. -/
def replayPhaseStep (it : Item) (nodeResults : PhaseMap) (w : Phase) :
    List Report × Nat :=
  match alookup nodeResults w with
  | none =>
    if w == Phase.call && setupPassedIn nodeResults then
      ([(⟨it.nodeid, .call, .failed, missingCallMsg it.nodeid, 0, "", "",
          none, none, false⟩ : Report)], 1)
    else ([], 0)
  | some r =>
    (([⟨it.nodeid, w, r.outcome, r.longrepr, r.duration, r.stdout, r.stderr,
        some r.sections, some r.user_properties, r.wasxfail⟩] : List Report),
     if w == Phase.call && r.outcome == Outcome.failed then 1 else 0)

/-- The per-item replay of `_emit_all_results` (`execution.py` lines
328-366): setup, call, teardown in that fixed order. -/
def emitItemPhases (it : Item) (nodeResults : PhaseMap) : List Report × Nat :=
  let s := replayPhaseStep it nodeResults Phase.setup
  let c := replayPhaseStep it nodeResults Phase.call
  let t := replayPhaseStep it nodeResults Phase.teardown
  (s.1 ++ c.1 ++ t.1, s.2 + c.2 + t.2)

/-- `_emit_all_results` (`execution.py` lines 313-366): items absent
from the result set are skipped entirely. -/
def emitAllResults : List Item → TestResults → (List Report × Nat)
  | [], _ => ([], 0)
  | it :: rest, results =>
    let tail := emitAllResults rest results
    if amem results it.nodeid then
      let here := emitItemPhases it ((alookup results it.nodeid).getD [])
      (here.1 ++ tail.1, here.2 + tail.2)
    else tail

/-- A `SubprocessResult` (`execution.py` lines 39-46). -/
structure SubprocessResult where
  returncode : Int
  stdout : String
  stderr : String
  timed_out : Bool
deriving DecidableEq, Repr

/-- The outcome of the external `subprocess.run` call inside
`_run_subprocess`: either the child completed with an exit code, or
`subprocess.TimeoutExpired` was raised carrying whatever partial output
was captured (possibly `None`). -/
inductive ProcEvent where
  | completed : Int → Option String → Option String → ProcEvent
  | timeoutExpired : Option String → Option String → ProcEvent
deriving DecidableEq, Repr

/-- `_run_subprocess` (`execution.py` lines 84-113): total — the
`TimeoutExpired` exception is converted to a data value with
`timed_out=True` and return code `-1`, never re-raised. -/
def runSubprocess : ProcEvent → SubprocessResult
  | .completed rc out err => ⟨rc, out.getD "", err.getD "", false⟩
  | .timeoutExpired out err => ⟨-1, out.getD "", err.getD "", true⟩

/-- Everything the per-group body of `pytest_runtestloop`
(`execution.py` lines 424-521) consumes for one group: the group's
name, resolved timeout, formatted elapsed time, ordered items, worker
exit status, and the parsed result set. -/
structure GroupRun where
  name : String
  groupTimeout : Int
  execTime : String
  items : List Item
  returncode : Int
  timedOut : Bool
  stderrBytes : String
  results : TestResults
deriving DecidableEq, Repr

/-- The reconciliation pipeline run for one group by
`pytest_runtestloop` (`execution.py` lines 496-521): xfail-crash
override, then timeout, then collection crash (each ends the group when
it fires), then mid-test crash handling followed by normal replay.
Returns the emitted reports and the `session.testsfailed` increments. -/
def processGroup (g : GroupRun) : List Report × Nat :=
  match handleXfailCrash g.returncode g.results g.items with
  | some out => out
  | none =>
    match handleTimeout g.timedOut g.name g.groupTimeout g.execTime g.items with
    | some out => out
    | none =>
      match handleCollectionCrash g.returncode g.results g.name g.stderrBytes
          g.items with
      | some out => out
      | none =>
        let mid := handleMidTestCrash g.returncode g.stderrBytes g.items g.results
        let rest := emitAllResults g.items mid.2.2.2
        (mid.2.1 ++ rest.1, mid.2.2.1 + rest.2)

/-- The `isolated` marker as `item.get_closest_marker("isolated")`
returns it: optional positional group argument (`m.args[0]`), optional
`group=` keyword, optional `timeout=` keyword. -/
structure MarkerInfo where
  argGroup : Option String
  kwGroup : Option String
  kwTimeout : Option Int
deriving DecidableEq, Repr

/-- A collected item as `pytest_collection_modifyitems` in `grouping.py`
observes it: nodeid, closest `isolated` marker, whether it is a
`pytest.Function`, whether it carries its own directly-applied
`isolated` marker (`_has_own_isolated_marker`), whether
`item.cls is not None and _has_isolated_marker(item.cls)`, and whether
`_has_isolated_marker(item.module)`. -/
structure CollectedItem where
  nodeid : String
  marker : Option MarkerInfo
  isFunction : Bool
  ownIsolated : Bool
  clsIsolated : Bool
  moduleIsolated : Bool
deriving DecidableEq, Repr

/-- Python `s.split("::")`, on the character list (accumulator holds the
current field reversed). -/
def splitDoubleColon : List Char → List Char → List (List Char)
  | acc, [] => [acc.reverse]
  | acc, ':' :: ':' :: rest => acc.reverse :: splitDoubleColon [] rest
  | acc, c :: rest => splitDoubleColon (c :: acc) rest

/-- `item.nodeid.split("::")` (`grouping.py` lines 76, 80). -/
def nodeidParts (s : String) : List String :=
  (splitDoubleColon [] s.toList).map String.mk

/-- The loop-skip test of `grouping.py` line 50: an item takes part in
grouping iff it has an `isolated` marker or `--isolated` is set. -/
def isPlanned (runAll : Bool) (item : CollectedItem) : Bool :=
  item.marker.isSome || runAll

/-- The group key computed for one item by the grouping loop
(`grouping.py` lines 53-90): explicit positional group, else `group=`
keyword, else — for a `pytest.Function` without its own directly-applied
marker — the class key (`"::".join(parts[:2])` when the nodeid has at
least three parts) or the module key (`parts[0]`), else the item's own
nodeid.  The final `str(group)` is the identity here since keys are
modelled as strings. -/
def groupKeyOf (item : CollectedItem) : String :=
  let explicitGroup : Option String :=
    match item.marker with
    | some m =>
      match m.argGroup with
      | some g => some g
      | none => m.kwGroup
    | none => none
  match explicitGroup with
  | some g => g
  | none =>
    match item.marker with
    | none => item.nodeid
    | some _ =>
      if item.isFunction then
        if item.ownIsolated then item.nodeid
        else if item.clsIsolated then
          let parts := nodeidParts item.nodeid
          if 3 ≤ parts.length then String.intercalate "::" (parts.take 2)
          else item.nodeid
        else if item.moduleIsolated then (nodeidParts item.nodeid).headD item.nodeid
        else item.nodeid
      else item.nodeid

/-- The two collection-time tables of `grouping.py`: the ordered group
mapping and the per-group timeout overrides. -/
structure GroupPlan where
  groups : List (String × List CollectedItem)
  timeouts : List (String × Option Int)
deriving DecidableEq, Repr

/-- `groups.setdefault(group_key, []).append(item)` (`grouping.py` line
95). -/
def setdefaultAppend (gs : List (String × List CollectedItem)) (key : String)
    (item : CollectedItem) : List (String × List CollectedItem) :=
  match alookup gs key with
  | some l => aset gs key (l ++ [item])
  | none => gs ++ [(key, [item])]

/-- One iteration of the grouping loop body for a planned item
(`grouping.py` lines 53-95): the first item encountered for a key fixes
that key's timeout override (`if group_key not in group_timeouts`). -/
def planStep (plan : GroupPlan) (item : CollectedItem) : GroupPlan :=
  let key := groupKeyOf item
  let timeouts :=
    if amem plan.timeouts key then plan.timeouts
    else plan.timeouts ++ [(key, item.marker.bind (·.kwTimeout))]
  ⟨setdefaultAppend plan.groups key item, timeouts⟩

/-- The grouping loop of `pytest_collection_modifyitems`
(`grouping.py` lines 46-95). -/
def planLoop (runAll : Bool) : List CollectedItem → GroupPlan → GroupPlan
  | [], plan => plan
  | item :: rest, plan =>
    planLoop runAll rest (if isPlanned runAll item then planStep plan item else plan)

/-- The full planner: fold the item list over the loop body starting
from empty tables. -/
def planGroups (runAll : Bool) (items : List CollectedItem) : GroupPlan :=
  planLoop runAll items ⟨[], []⟩

/-- Python `a or b` for an optional integer `a` (`None` and `0` are
falsy), as used on `execution.py` lines 416 and 428. -/
def pyOrInt (a : Option Int) (b : Int) : Int :=
  match a with
  | none => b
  | some v => if v = 0 then b else v

/-- `default_timeout` (`execution.py` lines 413-418): the
`--isolated-timeout` CLI option, else `int()` of the non-empty
`isolated_timeout` ini string, else `DEFAULT_TIMEOUT = 300`
(`config.py` line 16).  The ini string is modelled by its parsed
integer, `none` standing for the empty string. -/
def defaultTimeoutOf (timeoutOpt : Option Int) (timeoutIni : Option Int) : Int :=
  pyOrInt timeoutOpt (match timeoutIni with | some v => v | none => 300)

/-- `group_timeout = group_timeouts.get(group_name) or default_timeout`
(`execution.py` line 428). -/
def resolveGroupTimeout (groupTimeouts : List (String × Option Int))
    (timeoutOpt timeoutIni : Option Int) (groupName : String) : Int :=
  pyOrInt ((alookup groupTimeouts groupName).join)
    (defaultTimeoutOf timeoutOpt timeoutIni)

/-- Whether the per-group body of `pytest_runtestloop` ends in one of
the three `continue` statements (`execution.py` lines 498, 508, 513):
true when `_handle_xfail_crash`, `_handle_timeout` or
`_handle_collection_crash` handled the group.  Such a group jumps
straight to the next loop iteration, past the maxfail check of lines
523-529. -/
def groupContinued (g : GroupRun) : Bool :=
  (handleXfailCrash g.returncode g.results g.items).isSome ||
    (handleTimeout g.timedOut g.name g.groupTimeout g.execTime g.items).isSome ||
    (handleCollectionCrash g.returncode g.results g.name g.stderrBytes
      g.items).isSome

/-- The group loop of `pytest_runtestloop` (`execution.py` lines
424-529) over the remaining groups: process a group, add its failure
increments, and — only when the body ran to its end, i.e. the group was
not ended by one of the three `continue` statements — apply the maxfail
check of lines 523-529 at the group boundary.  Returns (final failure
count, groups launched, early exit taken?). -/
def runGroupsLoop (maxfail : Nat) : List GroupRun → Nat → Nat × List GroupRun × Bool
  | [], tf => (tf, [], false)
  | g :: rest, tf =>
    let tf1 := tf + (processGroup g).2
    if groupContinued g = false ∧ tf1 ≠ 0 ∧ maxfail ≠ 0 ∧ maxfail ≤ tf1 then
      (tf1, [g], true)
    else
      let tail := runGroupsLoop maxfail rest tf1
      (tail.1, g :: tail.2.1, tail.2.2)

/-- `pytest_runtestloop` (parent mode, `execution.py` lines 423-536)
after planning: run the groups; if the maxfail check fired, return 1 at
once without running any native item; otherwise run the native items
in-process and return 1 iff any test failed.  Returned tuple:
(status, launched groups, native items run, final failure count).
Native failures happen in the host's own protocol and are outside the
model. -/
def runTestLoopModel (maxfail : Nat) (groups : List GroupRun)
    (normalItems : List String) (tf : Nat) :
    Int × List GroupRun × List String × Nat :=
  let res := runGroupsLoop maxfail groups tf
  if res.2.2 then (1, res.2.1, [], res.1)
  else ((if res.1 ≠ 0 then 1 else 0), res.2.1, normalItems, res.1)

/-- A JSON value as `json.dumps`/`json.loads` exchange them for the
record dict (Python tuples and lists both serialize as JSON arrays;
`user_properties` values are modelled by their JSON text). -/
inductive JVal where
  | jstr : String → JVal
  | jnum : Rat → JVal
  | jbool : Bool → JVal
  | jarr : List JVal → JVal

/-- The wire name of a phase. -/
def phaseName : Phase → String
  | .setup => "setup"
  | .call => "call"
  | .teardown => "teardown"

/-- The wire name of an outcome. -/
def outcomeName : Outcome → String
  | .passed => "passed"
  | .failed => "failed"
  | .skipped => "skipped"

/-- The JSON object written for one report by `pytest_runtest_logreport`
(`reporting.py` lines 24-37): the eleven keys of the record dict in
source order. -/
def encodeRecord (r : TestRecord) : List (String × JVal) :=
  [("nodeid", .jstr r.nodeid),
   ("when", .jstr (phaseName r.when)),
   ("outcome", .jstr (outcomeName r.outcome)),
   ("longrepr", .jstr r.longrepr),
   ("duration", .jnum r.duration),
   ("stdout", .jstr r.stdout),
   ("stderr", .jstr r.stderr),
   ("keywords", .jarr (r.keywords.map .jstr)),
   ("sections", .jarr (r.sections.map (fun p => .jarr [.jstr p.1, .jstr p.2]))),
   ("user_properties",
     .jarr (r.user_properties.map (fun p => .jarr [.jstr p.1, .jstr p.2]))),
   ("wasxfail", .jbool r.wasxfail)]

/-- Projection of a JSON string. -/
def asStr : JVal → Option String
  | .jstr s => some s
  | _ => none

/-- Projection of a JSON number. -/
def asNum : JVal → Option Rat
  | .jnum q => some q
  | _ => none

/-- Projection of a JSON boolean. -/
def asBool : JVal → Option Bool
  | .jbool b => some b
  | _ => none

/-- Projection of a JSON array. -/
def asArr : JVal → Option (List JVal)
  | .jarr l => some l
  | _ => none

/-- Projection of a two-element string array (a serialized pair). -/
def asPair : JVal → Option (String × String)
  | .jarr [.jstr a, .jstr b] => some (a, b)
  | _ => none

/-- Wire-name to phase. -/
def phaseOfName (s : String) : Option Phase :=
  if s = "setup" then some .setup
  else if s = "call" then some .call
  else if s = "teardown" then some .teardown
  else none

/-- Wire-name to outcome. -/
def outcomeOfName (s : String) : Option Outcome :=
  if s = "passed" then some .passed
  else if s = "failed" then some .failed
  else if s = "skipped" then some .skipped
  else none

/-- Decode every element of a JSON array, failing if any element
fails. -/
def mapOption {α β : Type} (f : α → Option β) : List α → Option (List β)
  | [] => some []
  | x :: rest =>
    match f x with
    | none => none
    | some y =>
      match mapOption f rest with
      | none => none
      | some ys => some (y :: ys)

/-- Reading the parsed JSON object back as the typed `_TestRecord` view
that `_parse_results` stores and the reconciliation code consumes
(`rec["nodeid"]`, `rec["when"]`, `rec.get("outcome")`, ...): every field
of the record dict is read back. -/
def decodeRecord (j : List (String × JVal)) : Option TestRecord := do
  let nodeid ← (alookup j "nodeid").bind asStr
  let w ← ((alookup j "when").bind asStr).bind phaseOfName
  let outcome ← ((alookup j "outcome").bind asStr).bind outcomeOfName
  let longrepr ← (alookup j "longrepr").bind asStr
  let duration ← (alookup j "duration").bind asNum
  let stdout ← (alookup j "stdout").bind asStr
  let stderr ← (alookup j "stderr").bind asStr
  let keywords ← ((alookup j "keywords").bind asArr).bind (mapOption asStr)
  let sections ← ((alookup j "sections").bind asArr).bind (mapOption asPair)
  let userProps ← ((alookup j "user_properties").bind asArr).bind (mapOption asPair)
  let wasxfail ← (alookup j "wasxfail").bind asBool
  pure ⟨nodeid, w, outcome, longrepr, duration, stdout, stderr, keywords,
    sections, userProps, wasxfail⟩

/-- A concrete passing-setup record for building example result sets. -/
def sampleSetupRecord (nodeid : String) : TestRecord :=
  ⟨nodeid, .setup, .passed, "", 0, "", "", [], [], [], false⟩

/-- A concrete passing-call record for building example result sets. -/
def sampleCallRecord (nodeid : String) : TestRecord :=
  ⟨nodeid, .call, .passed, "", 0, "", "", [], [], [], false⟩

/-- A concrete failing-call record for building example result sets. -/
def sampleFailedCallRecord (nodeid : String) : TestRecord :=
  ⟨nodeid, .call, .failed, "assert failure", 0, "", "", [], [], [], false⟩

/-- A concrete passing-teardown record for building example result
sets. -/
def sampleTeardownRecord (nodeid : String) : TestRecord :=
  ⟨nodeid, .teardown, .passed, "", 0, "", "", [], [], [], false⟩

/-- Example group: one xfail test whose worker died on signal 11 after
reporting its setup phase. -/
def gC3case : GroupRun :=
  ⟨"g1", 300, "0.10", [⟨"t1", true⟩], -11, false, "",
   [("t1", [(Phase.setup, sampleSetupRecord "t1")])]⟩

/-- Example group: a timed-out worker (return code -1 as
`_run_subprocess` sets it) whose single test is marked xfail and had
already reported its setup phase — the configuration under which the
xfail-crash override preempts the timeout handler. -/
def gC2cex : GroupRun :=
  ⟨"g1", 5, "6.00", [⟨"t1", true⟩], -1, true, "",
   [("t1", [(Phase.setup, sampleSetupRecord "t1")])]⟩

/-- Example group: a timed-out worker with an empty result set and one
non-xfail test. -/
def gC2w : GroupRun :=
  ⟨"g2", 7, "8.00", [⟨"t2", false⟩], -1, true, "", []⟩

/-- Example group violating claim C10 as stated: negative exit code with
every test marked xfail, `t1` fully recorded and not crashed, `t2` with
no recorded phases — the xfail-crash override fires and emits reports
for `t2`. -/
def gC10cex : GroupRun :=
  ⟨"g1", 300, "0.10", [⟨"t1", true⟩, ⟨"t2", true⟩], -11, false, "",
   [("t1", [(Phase.setup, sampleSetupRecord "t1"),
            (Phase.call, sampleCallRecord "t1"),
            (Phase.teardown, sampleTeardownRecord "t1")])]⟩

/-- Example group for the amended claim C10: exit code 0, `t1` fully
recorded, `t2` with no recorded phases. -/
def gC10w : GroupRun :=
  ⟨"g1", 300, "0.10", [⟨"t1", false⟩, ⟨"t2", false⟩], 0, false, "",
   [("t1", [(Phase.setup, sampleSetupRecord "t1"),
            (Phase.call, sampleCallRecord "t1"),
            (Phase.teardown, sampleTeardownRecord "t1")])]⟩

/-- Example items for mid-test crash handling: `t1` crashed mid-call
(passed setup recorded, no call phase), `t2` never ran. -/
def gC4items : List Item := [⟨"t1", false⟩, ⟨"t2", false⟩]

/-- Example result set for mid-test crash handling. -/
def gC4results : TestResults := [("t1", [(Phase.setup, sampleSetupRecord "t1")])]

/-- Example collected item: explicit positional group name on the
marker. -/
def gC5it1 : CollectedItem :=
  ⟨"test_a.py::test_one", some ⟨some "grp", none, none⟩, true, true, false, false⟩

/-- Example collected item: own directly-applied marker, no group
argument. -/
def gC5it2 : CollectedItem :=
  ⟨"test_a.py::test_two", some ⟨none, none, none⟩, true, true, false, false⟩

/-- Example collected item: marker inherited from its class. -/
def gC5it3 : CollectedItem :=
  ⟨"test_a.py::TestC::test_three", some ⟨none, none, none⟩, true, false, true, false⟩

/-- Example collected item: marker inherited from its module. -/
def gC5it4 : CollectedItem :=
  ⟨"test_a.py::test_four", some ⟨none, none, none⟩, true, false, false, true⟩

/-- Example collection for the grouping claims. -/
def gC5items : List CollectedItem := [gC5it1, gC5it2, gC5it3, gC5it4]

/-- Example item with a marker timeout, first of its group. -/
def gC6itA : CollectedItem :=
  ⟨"m.py::a", some ⟨some "g", none, some 5⟩, true, true, false, false⟩

/-- Example item with a different marker timeout for the same group. -/
def gC6itB : CollectedItem :=
  ⟨"m.py::b", some ⟨some "g", none, some 9⟩, true, true, false, false⟩

/-- Example collection for the timeout-resolution claim. -/
def gC6items : List CollectedItem := [gC6itA, gC6itB]


/-- The aggregate failure count after processing a list of groups in
order, starting from a given count. -/
def tfAfter (groups : List GroupRun) (tf : Nat) : Nat :=
  groups.foldl (fun acc gr => acc + (processGroup gr).2) tf

/-- Example group whose single test fails during normal replay (exit
code 0, full phase records with a failed call): its body runs to the end
of the loop, so the maxfail check is reached. -/
def gC8w : GroupRun :=
  ⟨"g3", 300, "0.10", [⟨"t1", false⟩], 0, false, "",
   [("t1", [(Phase.setup, sampleSetupRecord "t1"),
            (Phase.call, sampleFailedCallRecord "t1"),
            (Phase.teardown, sampleTeardownRecord "t1")])]⟩


/-- claim C1 (counterexample): contrary to the claim, `_parse_results`
is not total on malformed lines: on a file holding one line on which
`json.loads` errors, the parse aborts with that error instead of
skipping the line. -/
theorem parse_results_malformed_line_aborts :
    parseResults jsonLoadsFailing (some ["not json"]) = .error "Expecting value" :=
  rfl

/-- claim C1 (amended): `_parse_results` returns the mapping built from
the well-formed lines only as long as every non-blank line decodes;
blank (whitespace-only) lines are skipped; a missing file yields an
empty mapping; but a non-blank line on which `json.loads` errors aborts
the parse with that error (the exception propagates, it is not
skipped). -/
theorem parse_results_behaviour
    (jsonLoads : String → Except String TestRecord)
    (line : String) (rest : List String) (e : String) :
    parseResults jsonLoads none = .ok [] ∧
    (pyStrip line = "" →
      parseResults jsonLoads (some (line :: rest)) =
        parseResults jsonLoads (some rest)) ∧
    (pyStrip line ≠ "" → jsonLoads (pyStrip line) = .error e →
      parseResults jsonLoads (some (line :: rest)) = .error e) := by
  refine ⟨rfl, ?_, ?_⟩
  · intro hblank
    simp [parseResults, parseLines, hblank]
  · intro hnb herr
    simp [parseResults, parseLines, hnb, herr]

/-- claim C1 (witness): the amended behaviour at a concrete input: a
blank line is skipped, and a malformed third line aborts the parse. -/
theorem parse_results_behaviour_witness :
    parseResults jsonLoadsFailing (some ["  ", "bad", "x"]) =
      parseResults jsonLoadsFailing (some ["bad", "x"]) ∧
    parseResults jsonLoadsFailing (some ["bad", "x"]) = .error "Expecting value" := by
  refine ⟨(parse_results_behaviour jsonLoadsFailing "  " ["bad", "x"]
    "Expecting value").2.1 (by decide), ?_⟩
  exact (parse_results_behaviour jsonLoadsFailing "bad" ["x"]
    "Expecting value").2.2 (by decide) rfl



/-- Substring containment through an explicit decomposition. -/
theorem strHas_build (a sub b : String) : strHas sub (a ++ sub ++ b) := by
  unfold strHas
  exact ⟨a.toList, b.toList, by simp⟩

/-- Substring containment from an equation exhibiting the occurrence. -/
theorem strHas_of_eq (a sub b s : String) (h : s = a ++ sub ++ b) :
    strHas sub s := by
  subst h; exact strHas_build a sub b

/-- Containment is preserved by wrapping text around the string. -/
theorem strHas_wrap (sub s pre post : String) (h : strHas sub s) :
    strHas sub (pre ++ s ++ post) := by
  obtain ⟨x, y, hxy⟩ := h
  refine ⟨pre.toList ++ x, y ++ post.toList, ?_⟩
  have h1 : (pre ++ s ++ post).toList = pre.toList ++ (s.toList ++ post.toList) := by
    simp
  rw [h1, ← hxy]
  simp

/-- Containment is preserved by appending on the right. -/
theorem strHas_append_left (sub s t : String) (h : strHas sub s) :
    strHas sub (s ++ t) := by
  have h2 := strHas_wrap sub s "" t h
  rwa [String.empty_append] at h2

/-- claim C7: every synthesized crash reason contains `"signal N"`
exactly when the exit code is negative (with `N` its absolute value) and
`"exit code N"` exactly when it is non-negative — the reason is exactly
one of the two forms, and the containment survives into the full
`_format_crash_message` text; and every collection-crash message
(emitted when the result set is empty) notes that the process produced
no per-test report. -/
theorem crash_message_contract (returncode : Int)
    (context groupName stderrText : String) :
    (returncode < 0 →
      formatCrashReason returncode = "crashed with " ++ signalText (-returncode) ∧
      strHas (signalText (-returncode)) (formatCrashReason returncode) ∧
      strHas (signalText (-returncode))
        (formatCrashMessage returncode context stderrText)) ∧
    (0 ≤ returncode →
      formatCrashReason returncode = "crashed with " ++ exitCodeText returncode ∧
      strHas (exitCodeText returncode) (formatCrashReason returncode) ∧
      strHas (exitCodeText returncode)
        (formatCrashMessage returncode context stderrText)) ∧
    strHas "produced no per-test report"
      (collectionCrashMsg groupName returncode stderrText) := by
  have hmsg : ∀ sub : String, strHas sub (formatCrashReason returncode) →
      strHas sub (formatCrashMessage returncode context stderrText) := by
    intro sub h
    have hbase : strHas sub
        ("Subprocess " ++ formatCrashReason returncode ++ " " ++ context ++ ".") := by
      have h2 := strHas_wrap sub (formatCrashReason returncode) "Subprocess "
        (" " ++ context ++ ".") h
      have he : "Subprocess " ++ formatCrashReason returncode ++
          (" " ++ context ++ ".") =
          "Subprocess " ++ formatCrashReason returncode ++ " " ++ context ++ "." := by
        simp [String.append_assoc]
      rwa [he] at h2
    unfold formatCrashMessage
    split
    · exact strHas_append_left _ _ _ (strHas_append_left _ _ _ hbase)
    · exact hbase
  have hcoll : strHas "produced no per-test report"
      (collectionCrashMsg groupName returncode stderrText) := by
    have hbase : strHas "produced no per-test report"
        (collectionCrashBase groupName returncode) := by
      refine strHas_of_eq
        ("Subprocess group=" ++ pyRepr groupName ++ " exited with code " ++
          toString returncode ++ " and ")
        "produced no per-test report"
        ". The subprocess may have crashed during collection." _ ?_
      simp [collectionCrashBase, String.append_assoc]
    unfold collectionCrashMsg
    split
    · exact strHas_append_left _ _ _ (strHas_append_left _ _ _ hbase)
    · exact hbase
  refine ⟨?_, ?_, hcoll⟩
  · intro h
    have hr : formatCrashReason returncode =
        "crashed with " ++ signalText (-returncode) := by
      simp [formatCrashReason, h]
    have hc : strHas (signalText (-returncode)) (formatCrashReason returncode) := by
      rw [hr]
      exact ⟨"crashed with ".toList, [], by simp⟩
    exact ⟨hr, hc, hmsg _ hc⟩
  · intro h
    have hr : formatCrashReason returncode =
        "crashed with " ++ exitCodeText returncode := by
      simp [formatCrashReason, not_lt.mpr h]
    have hc : strHas (exitCodeText returncode) (formatCrashReason returncode) := by
      rw [hr]
      exact ⟨"crashed with ".toList, [], by simp⟩
    exact ⟨hr, hc, hmsg _ hc⟩

/-- claim C7 (witness): the contract at return codes -11 and 2. -/
theorem crash_message_contract_witness :
    strHas (signalText (-(-11 : Int)))
      (formatCrashMessage (-11) "during test execution" "") ∧
    strHas (exitCodeText 2) (formatCrashReason 2) ∧
    strHas "produced no per-test report" (collectionCrashMsg "g1" 2 "") :=
  ⟨((crash_message_contract (-11) "during test execution" "g1" "").1
      (by decide)).2.2,
   ((crash_message_contract 2 "during test execution" "g1" "").2.1
      (by decide)).2.1,
   (crash_message_contract 2 "during test execution" "g1" "").2.2⟩

/-- `_emit_failure_for_items`, characterized per item: a synthesized
setup/call/teardown triple for each item, and one failure increment per
non-xfail item. -/
theorem emitFailureForItems_spec (items : List Item) (msg : String) :
    emitFailureForItems items msg =
      (items.flatMap (fun it =>
        [synthSetupRep it, synthCallRep it msg, synthTeardownRep it]),
       (items.filter (fun it => !it.xfail)).length) := by
  induction items with
  | nil => rfl
  | cons it rest ih =>
    by_cases hx : it.xfail
    · simp [emitFailureForItems, ih, synthCallRep, synthSetupRep, synthTeardownRep,
        hx, List.filter_cons]
    · simp [emitFailureForItems, ih, synthCallRep, synthSetupRep, synthTeardownRep,
        hx, List.filter_cons, Nat.add_comm]

/-- claim C3: when the worker exit code is negative, the parsed result
set is non-empty, and every test in the group is marked xfail, the whole
group reconciliation is exactly the crash-as-expected trace: per test a
synthesized setup/call/teardown triple whose call phase is a
skipped-as-xfail outcome carrying a message naming the signal number,
with zero failure increments and no further processing of the partial
phase data; and when any of the three preconditions fails the override
does not fire. -/
theorem xfail_crash_override (g : GroupRun) (hneg : g.returncode < 0)
    (hres : g.results ≠ []) (hall : g.items.all (·.xfail) = true) :
    processGroup g =
      (g.items.flatMap (fun it =>
        [synthSetupRep it, synthCallRep it (xfailCrashMsg g.returncode),
         synthTeardownRep it]), 0) ∧
    (∀ it ∈ g.items, synthCallRep it (xfailCrashMsg g.returncode) =
      ⟨it.nodeid, .call, .skipped, xfailCrashMsg g.returncode, 0, "", "",
        none, none, true⟩) ∧
    strHas (signalText (-g.returncode)) (xfailCrashMsg g.returncode) ∧
    (∀ (rc : Int) (results : TestResults) (items : List Item),
      ¬(rc < 0 ∧ results ≠ [] ∧ items.all (·.xfail) = true) →
      handleXfailCrash rc results items = none) := by
  refine ⟨?_, ?_, ?_, ?_⟩
  · have hfire : handleXfailCrash g.returncode g.results g.items =
        some (emitFailureForItems g.items (xfailCrashMsg g.returncode)) := by
      unfold handleXfailCrash
      rw [if_pos ⟨hneg, hres⟩, if_pos hall]
    have hlen : (g.items.filter (fun it => !it.xfail)).length = 0 := by
      have : g.items.filter (fun it => !it.xfail) = [] := by
        rw [List.filter_eq_nil_iff]
        intro it hit
        have := (List.all_eq_true.mp hall) it hit
        simp [this]
      rw [this]; rfl
    unfold processGroup
    rw [hfire]
    rw [emitFailureForItems_spec, hlen]
  · intro it hit
    have hx := (List.all_eq_true.mp hall) it hit
    simp [synthCallRep, hx]
  · exact strHas_of_eq "Subprocess crashed with " _ " (expected for xfail test)" _ rfl
  · intro rc results items h
    unfold handleXfailCrash
    split
    · next h1 =>
      split
      · next h2 => exact absurd ⟨h1.1, h1.2, h2⟩ h
      · rfl
    · rfl

/-- claim C3 (witness): the override at a concrete single-xfail-test
group whose worker died on signal 11 after reporting a setup phase. -/
theorem xfail_crash_override_witness :
    processGroup gC3case =
      ([⟨"t1", .setup, .passed, "", 0, "", "", none, none, false⟩,
        ⟨"t1", .call, .skipped, xfailCrashMsg (-11), 0, "", "", none, none, true⟩,
        ⟨"t1", .teardown, .passed, "", 0, "", "", none, none, false⟩], 0) := by
  have h := (xfail_crash_override gC3case (by decide) (by decide) (by decide)).1
  rw [h]
  rfl

/-- claim C2 (counterexample): a timed-out worker run (timed_out=true,
return code -1 as `_run_subprocess` reports it) with a non-empty result
set and an all-xfail group is preempted by the xfail-crash override: no
test receives a failed call phase and no message contains the
"timed out after N seconds" text, contradicting the claim that every
timed-out group synthesizes failed call phases with that message for
every test. -/
theorem timeout_claim_counterexample :
    gC2cex.timedOut = true ∧
    (¬ ∃ r ∈ (processGroup gC2cex).1, r.outcome = Outcome.failed) ∧
    (¬ ∃ r ∈ (processGroup gC2cex).1,
      strHas (timedOutText gC2cex.groupTimeout) r.longrepr) ∧
    (∃ r ∈ (processGroup gC2cex).1,
      r.when = Phase.call ∧ r.outcome = Outcome.skipped ∧ r.wasxfail = true) := by
  decide

/-- claim C2 (amended): `_run_subprocess` converts a timeout into a data
value (`timed_out=True`, return code -1) rather than propagating the
exception; and for a timed-out group — provided the xfail-crash override
does not fire, i.e. the result set is empty or not all tests are xfail —
the reconciliation is exactly the uniform timeout trace, independent of
any partially recorded results: per test a synthesized
setup/call/teardown triple whose call phase is failed (or skipped-as-
xfail for an xfail test) with a message that contains
"timed out after N seconds" (N the resolved group timeout) and names the
remediation flags. -/
theorem timeout_handling (g : GroupRun) (ht : g.timedOut = true)
    (hnofire : g.results = [] ∨ ¬(g.items.all (·.xfail) = true)) :
    (∀ out err, runSubprocess (.timeoutExpired out err) =
      ⟨-1, out.getD "", err.getD "", true⟩) ∧
    processGroup g =
      (g.items.flatMap (fun it =>
        [synthSetupRep it,
         synthCallRep it (timeoutMsg g.name g.groupTimeout g.execTime),
         synthTeardownRep it]),
       (g.items.filter (fun it => !it.xfail)).length) ∧
    strHas (timedOutText g.groupTimeout)
      (timeoutMsg g.name g.groupTimeout g.execTime) ∧
    strHas "--isolated-timeout" (timeoutMsg g.name g.groupTimeout g.execTime) ∧
    strHas "isolated_timeout" (timeoutMsg g.name g.groupTimeout g.execTime) ∧
    strHas "@pytest.mark.isolated(timeout=N)"
      (timeoutMsg g.name g.groupTimeout g.execTime) := by
  have hx : handleXfailCrash g.returncode g.results g.items = none := by
    unfold handleXfailCrash
    rcases hnofire with h1 | h2
    · simp [h1]
    · simp [h2]
  refine ⟨fun out err => rfl, ?_, ?_, ?_, ?_, ?_⟩
  · unfold processGroup
    rw [hx]
    unfold handleTimeout
    rw [if_pos ht]
    rw [emitFailureForItems_spec]
  · exact strHas_of_eq ("Subprocess group=" ++ pyRepr g.name ++ " ")
      (timedOutText g.groupTimeout)
      (" (execution time: " ++ g.execTime ++ "s). Increase timeout with " ++
        "--isolated-timeout" ++ ", " ++ "isolated_timeout" ++ " ini, or " ++
        "@pytest.mark.isolated(timeout=N)" ++ ".") _
      (by simp [timeoutMsg, String.append_assoc])
  · exact strHas_of_eq
      ("Subprocess group=" ++ pyRepr g.name ++ " " ++ timedOutText g.groupTimeout ++
        " (execution time: " ++ g.execTime ++ "s). Increase timeout with ")
      "--isolated-timeout"
      (", " ++ "isolated_timeout" ++ " ini, or " ++
        "@pytest.mark.isolated(timeout=N)" ++ ".") _
      (by simp [timeoutMsg, String.append_assoc])
  · exact strHas_of_eq
      ("Subprocess group=" ++ pyRepr g.name ++ " " ++ timedOutText g.groupTimeout ++
        " (execution time: " ++ g.execTime ++ "s). Increase timeout with " ++
        "--isolated-timeout" ++ ", ")
      "isolated_timeout"
      (" ini, or " ++ "@pytest.mark.isolated(timeout=N)" ++ ".") _
      (by simp [timeoutMsg, String.append_assoc])
  · exact strHas_of_eq
      ("Subprocess group=" ++ pyRepr g.name ++ " " ++ timedOutText g.groupTimeout ++
        " (execution time: " ++ g.execTime ++ "s). Increase timeout with " ++
        "--isolated-timeout" ++ ", " ++ "isolated_timeout" ++ " ini, or ")
      "@pytest.mark.isolated(timeout=N)" "." _
      (by simp [timeoutMsg, String.append_assoc])

/-- claim C2 (witness): the amended behaviour at a concrete timed-out
group with an empty result set and one non-xfail test. -/
theorem timeout_handling_witness :
    processGroup gC2w =
      ([⟨"t2", .setup, .passed, "", 0, "", "", none, none, false⟩,
        ⟨"t2", .call, .failed, timeoutMsg "g2" 7 "8.00", 0, "", "", none, none, false⟩,
        ⟨"t2", .teardown, .passed, "", 0, "", "", none, none, false⟩], 1) ∧
    strHas (timedOutText 7) (timeoutMsg "g2" 7 "8.00") := by
  have h := timeout_handling gC2w rfl (Or.inl rfl)
  refine ⟨?_, h.2.2.1⟩
  rw [h.2.1]
  rfl

/-- Lookup after a dict removal. -/
theorem alookup_aremove {α : Type} [DecidableEq α] {β : Type}
    (l : List (α × β)) (k k' : α) :
    alookup (aremove l k) k' = if k' = k then none else alookup l k' := by
  induction l with
  | nil => by_cases h : k' = k <;> simp [aremove, alookup, h]
  | cons p rest ih =>
    simp only [aremove, List.filter_cons] at *
    by_cases h1 : p.1 = k <;> by_cases h2 : k' = k <;>
      by_cases h3 : p.1 = k' <;>
      simp_all [alookup, aremove]

/-- Lookup after removing every listed item's entry. -/
theorem alookup_removeAll (results : TestResults) (its : List Item) (k : String) :
    alookup (removeAll results its) k =
      if k ∈ its.map (·.nodeid) then none else alookup results k := by
  induction its generalizing results with
  | nil => simp [removeAll]
  | cons it rest ih =>
    have hstep : removeAll results (it :: rest) =
        removeAll (aremove results it.nodeid) rest := rfl
    rw [hstep, ih]
    by_cases h1 : k ∈ rest.map (·.nodeid) <;> by_cases h2 : k = it.nodeid <;>
      simp [h1, h2, alookup_aremove]

/-- `flatMap` respects pointwise equality on the list. -/
theorem flatMapCongr {α β : Type} (l : List α) (f g : α → List β)
    (h : ∀ x ∈ l, f x = g x) : l.flatMap f = l.flatMap g := by
  induction l with
  | nil => rfl
  | cons x rest ih =>
    simp only [List.flatMap_cons]
    rw [h x (by simp), ih (fun y hy => h y (by simp [hy]))]

/-- The crash classification of `_detect_crashed_tests`, stated the way
the claim reads: recorded setup phase with outcome passed and no
recorded call phase. -/
theorem crashedPred_iff (results : TestResults) (it : Item) :
    crashedPred results it = true ↔
      ((∃ r, alookup ((alookup results it.nodeid).getD []) Phase.setup = some r ∧
        r.outcome = Outcome.passed) ∧
       alookup ((alookup results it.nodeid).getD []) Phase.call = none) := by
  unfold crashedPred
  rcases hs : alookup ((alookup results it.nodeid).getD []) Phase.setup with _ | r
  · simp [hs]
  · have hne : ((alookup results it.nodeid).getD []) ≠ [] := by
      intro he
      rw [he] at hs
      simp [alookup] at hs
    rcases hc : alookup ((alookup results it.nodeid).getD []) Phase.call with _ | rc
    · simp [hs, hc, amem, hne]
    · simp [hs, hc, amem]

/-- The emitted setup report for a crashed item is always a setup-phase
report. -/
theorem setupRepOf_when (results : TestResults) (it : Item) :
    (setupRepOf results it).when = Phase.setup := by
  unfold setupRepOf
  split <;> rfl

/-- The crashed-item loop of `_handle_mid_test_crash`, characterized:
per crashed item the verbatim-or-synthesized setup, the crash-message
call (skipped-as-xfail or failed), a passing teardown; one failure
increment per non-xfail item; every processed item's entry popped. -/
theorem emitCrashedLoop_spec (msg : String) (its : List Item)
    (results : TestResults) (hnd : (its.map (·.nodeid)).Nodup) :
    emitCrashedLoop msg its results =
      (its.flatMap (fun it =>
        [setupRepOf results it, synthCallRep it msg, synthTeardownRep it]),
       (its.filter (fun it => !it.xfail)).length,
       removeAll results its) := by
  induction its generalizing results with
  | nil => rfl
  | cons it rest ih =>
    rw [List.map_cons, List.nodup_cons] at hnd
    have hsetup : ∀ it' ∈ rest,
        setupRepOf (aremove results it.nodeid) it' = setupRepOf results it' := by
      intro it' h'
      have hne : it'.nodeid ≠ it.nodeid := by
        intro he
        exact hnd.1 (he ▸ List.mem_map_of_mem (·.nodeid) h')
      unfold setupRepOf
      rw [alookup_aremove, if_neg hne]
    have hflat : rest.flatMap (fun it' =>
        [setupRepOf (aremove results it.nodeid) it', synthCallRep it' msg,
         synthTeardownRep it']) =
        rest.flatMap (fun it' =>
        [setupRepOf results it', synthCallRep it' msg, synthTeardownRep it']) :=
      flatMapCongr _ _ _ (fun x hx => by rw [hsetup x hx])
    by_cases hx : it.xfail <;>
      simp [emitCrashedLoop, ih _ hnd.2, hflat, hx, List.filter_cons,
        removeAll, Nat.add_comm]

/-- Every report replayed for one item carries that item's nodeid. -/
theorem replayPhaseStep_nodeid (it : Item) (nr : PhaseMap) (w : Phase) :
    ∀ r ∈ (replayPhaseStep it nr w).1, r.nodeid = it.nodeid := by
  intro r hr
  unfold replayPhaseStep at hr
  split at hr
  · split at hr <;> simp_all
  · simp_all

/-- Every report of the per-item replay carries that item's nodeid. -/
theorem emitItemPhases_nodeid (it : Item) (nr : PhaseMap) :
    ∀ r ∈ (emitItemPhases it nr).1, r.nodeid = it.nodeid := by
  intro r hr
  unfold emitItemPhases at hr
  simp only [List.mem_append] at hr
  rcases hr with (h | h) | h <;> exact replayPhaseStep_nodeid it _ _ r h

/-- Every report emitted by the normal-replay step names a test that is
present in the result set. -/
theorem emitAll_nodeid_mem (items : List Item) (results : TestResults)
    (r : Report) (hr : r ∈ (emitAllResults items results).1) :
    amem results r.nodeid = true := by
  induction items with
  | nil => simp [emitAllResults] at hr
  | cons it rest ih =>
    unfold emitAllResults at hr
    by_cases hm : amem results it.nodeid
    · rw [if_pos hm] at hr
      simp only [List.mem_append] at hr
      rcases hr with h | h
      · rw [emitItemPhases_nodeid it _ r h]
        exact hm
      · exact ih h
    · rw [if_neg hm] at hr
      exact ih hr

/-- Counting failed call phases distributes over trace concatenation. -/
theorem countFailedCalls_append (l₁ l₂ : List Report) :
    countFailedCalls (l₁ ++ l₂) = countFailedCalls l₁ + countFailedCalls l₂ := by
  simp [countFailedCalls, List.filter_append]

/-- Counting failed call phases, one report at a time. -/
theorem countFailedCalls_cons (r : Report) (l : List Report) :
    countFailedCalls (r :: l) =
      (if r.when = Phase.call ∧ r.outcome = Outcome.failed then 1 else 0) +
        countFailedCalls l := by
  by_cases h : r.when = Phase.call ∧ r.outcome = Outcome.failed
  · simp [countFailedCalls, List.filter_cons, h.1, h.2, Nat.add_comm]
  · have hb : (r.when == Phase.call && r.outcome == Outcome.failed) = false := by
      rcases not_and_or.mp h with h1 | h1 <;> simp [h1]
    simp [countFailedCalls, List.filter_cons, hb, h]

/-- The failure increments of `_emit_failure_for_items` count exactly
its failed call reports. -/
theorem emitFailureForItems_fails (items : List Item) (msg : String) :
    (emitFailureForItems items msg).2 =
      countFailedCalls (emitFailureForItems items msg).1 := by
  induction items with
  | nil => rfl
  | cons it rest ih =>
    by_cases hx : it.xfail <;>
      simp [emitFailureForItems, countFailedCalls_cons, synthSetupRep,
        synthCallRep, synthTeardownRep, hx, ih]

/-- The failure increments of the crashed-item loop count exactly its
failed call reports. -/
theorem emitCrashedLoop_fails (msg : String) (its : List Item)
    (results : TestResults) :
    (emitCrashedLoop msg its results).2.1 =
      countFailedCalls (emitCrashedLoop msg its results).1 := by
  induction its generalizing results with
  | nil => rfl
  | cons it rest ih =>
    have hs : ¬((setupRepOf results it).when = Phase.call ∧
        (setupRepOf results it).outcome = Outcome.failed) := by
      rw [setupRepOf_when]
      rintro ⟨h, -⟩
      cases h
    by_cases hx : it.xfail <;>
      simp [emitCrashedLoop, countFailedCalls_cons, synthCallRep,
        synthTeardownRep, hx, ih, hs]

/-- The failure increments of one replayed phase count exactly its
failed call reports. -/
theorem replayPhaseStep_fails (it : Item) (nr : PhaseMap) (w : Phase) :
    (replayPhaseStep it nr w).2 =
      countFailedCalls (replayPhaseStep it nr w).1 := by
  unfold replayPhaseStep
  split
  · split
    · next hcond =>
      have hw : w = Phase.call := by
        cases w <;> simp_all
      simp [countFailedCalls_cons, countFailedCalls, hw]
    · simp [countFailedCalls]
  · next r heq =>
    by_cases hw : w = Phase.call
    · by_cases ho : r.outcome = Outcome.failed <;>
        simp [countFailedCalls_cons, countFailedCalls, hw, ho]
    · have hb : (w == Phase.call) = false := by simp [hw]
      simp [countFailedCalls_cons, countFailedCalls, hb, hw]

/-- The failure increments of the per-item replay count exactly its
failed call reports. -/
theorem emitItemPhases_fails (it : Item) (nr : PhaseMap) :
    (emitItemPhases it nr).2 = countFailedCalls (emitItemPhases it nr).1 := by
  unfold emitItemPhases
  simp [countFailedCalls_append, replayPhaseStep_fails, Nat.add_assoc]

/-- The failure increments of the normal-replay step count exactly its
failed call reports. -/
theorem emitAllResults_fails (items : List Item) (results : TestResults) :
    (emitAllResults items results).2 =
      countFailedCalls (emitAllResults items results).1 := by
  induction items with
  | nil => rfl
  | cons it rest ih =>
    unfold emitAllResults
    by_cases hm : amem results it.nodeid <;>
      simp [hm, countFailedCalls_append, emitItemPhases_fails, ih]

/-- When any of its three preconditions fails, the xfail-crash override
does not fire. -/
theorem handleXfailCrash_not_fired (rc : Int) (results : TestResults)
    (items : List Item)
    (h : ¬(rc < 0 ∧ results ≠ [] ∧ items.all (·.xfail) = true)) :
    handleXfailCrash rc results items = none := by
  unfold handleXfailCrash
  by_cases h1 : rc < 0 ∧ results ≠ []
  · rw [if_pos h1]
    by_cases h2 : items.all (·.xfail) = true
    · exact absurd ⟨h1.1, h1.2, h2⟩ h
    · rw [if_neg h2]
  · rw [if_neg h1]

/-- With no crashed test detected, the never-run scan is empty and
mid-test crash handling is a no-op. -/
theorem handleMidTestCrash_no_crash (rc : Int) (sb : String)
    (items : List Item) (results : TestResults)
    (h : (detectCrashedTests items results).1 = []) :
    (detectCrashedTests items results).2 = [] ∧
    handleMidTestCrash rc sb items results = (false, [], 0, results) := by
  have h1 : items.filter (crashedPred results) = [] := by
    simpa [detectCrashedTests] using h
  have h2 : (detectCrashedTests items results).2 = [] := by
    simp [detectCrashedTests, h1]
  refine ⟨h2, ?_⟩
  unfold handleMidTestCrash
  simp [detectCrashedTests, h1]

/-- With at least one crashed test, mid-test crash handling emits the
crash trace for the crashed tests, then the did-not-run trace for the
never-run tests, counts one failure per non-xfail test among them, and
removes all of them from the result set. -/
theorem handleMidTestCrash_spec (rc : Int) (sb : String) (items : List Item)
    (results : TestResults) (hnd : (items.map (·.nodeid)).Nodup)
    (hc : (detectCrashedTests items results).1 ≠ []) :
    handleMidTestCrash rc sb items results =
      (true,
       (detectCrashedTests items results).1.flatMap (fun it =>
         [setupRepOf results it,
          synthCallRep it
            (formatCrashMessage rc "during test execution" (pyStrip sb)),
          synthTeardownRep it]) ++
       (detectCrashedTests items results).2.flatMap (fun it =>
         [synthSetupRep it,
          synthCallRep it ("Test did not run - " ++
            formatCrashMessage rc "during earlier test execution" (pyStrip sb)),
          synthTeardownRep it]),
       ((detectCrashedTests items results).1.filter (fun it => !it.xfail)).length +
         ((detectCrashedTests items results).2.filter (fun it => !it.xfail)).length,
       removeAll (removeAll results (detectCrashedTests items results).1)
         (detectCrashedTests items results).2) := by
  have hcnd : ((detectCrashedTests items results).1.map (·.nodeid)).Nodup := by
    have hsub : List.Sublist ((detectCrashedTests items results).1.map (·.nodeid))
        (items.map (·.nodeid)) :=
      (List.filter_sublist items).map (·.nodeid)
    exact List.Nodup.sublist hsub hnd
  have h1 : (detectCrashedTests items results).1.isEmpty = false := by
    rcases h : (detectCrashedTests items results).1 with _ | ⟨a, l⟩
    · exact absurd h hc
    · rfl
  by_cases hnr : (detectCrashedTests items results).2.isEmpty
  · have hnr' : (detectCrashedTests items results).2 = [] := by
      simpa [List.isEmpty_iff] using hnr
    unfold handleMidTestCrash
    simp only [h1, hnr, Bool.false_and, Bool.false_eq_true, if_false, ite_false,
      ite_true, Bool.false_eq, reduceIte]
    rw [emitCrashedLoop_spec _ _ _ hcnd]
    simp [hnr', removeAll]
  · have hnr'' : (detectCrashedTests items results).2.isEmpty = false := by
      rcases h : (detectCrashedTests items results).2 with _ | ⟨a, l⟩
      · rw [h] at hnr
        exact absurd rfl hnr
      · rfl
    unfold handleMidTestCrash
    simp only [h1, hnr'', Bool.false_and, Bool.false_eq_true, if_false, ite_false,
      ite_true, Bool.false_eq, reduceIte]
    rw [emitCrashedLoop_spec _ _ _ hcnd]
    rw [emitFailureForItems_spec]
    simp [removeAll]

/-- claim C4: a test is crashed iff its parsed results hold a passed
setup phase and no call phase; the never-run scan runs only when a
crashed test exists (and with none, mid-test crash handling is a no-op);
with crashed tests, each one gets its recorded setup phase (verbatim,
else a synthesized passing one), a call phase carrying the crash message
— skipped-as-xfail for an xfail test, else failed counting one failure —
then a synthesized passing teardown, and every crashed and never-run
test's entry is removed from the result set, so the normal replay emits
nothing for them. -/
theorem mid_test_crash_handling (items : List Item) (results : TestResults)
    (rc : Int) (stderrBytes : String)
    (hnd : (items.map (·.nodeid)).Nodup) :
    (∀ it, it ∈ (detectCrashedTests items results).1 ↔
      (it ∈ items ∧
       (∃ r, alookup ((alookup results it.nodeid).getD []) Phase.setup = some r ∧
          r.outcome = Outcome.passed) ∧
       alookup ((alookup results it.nodeid).getD []) Phase.call = none)) ∧
    ((detectCrashedTests items results).1 = [] →
      (detectCrashedTests items results).2 = [] ∧
      handleMidTestCrash rc stderrBytes items results = (false, [], 0, results)) ∧
    ((detectCrashedTests items results).1 ≠ [] →
      handleMidTestCrash rc stderrBytes items results =
        (true,
         (detectCrashedTests items results).1.flatMap (fun it =>
           [setupRepOf results it,
            synthCallRep it
              (formatCrashMessage rc "during test execution" (pyStrip stderrBytes)),
            synthTeardownRep it]) ++
         (detectCrashedTests items results).2.flatMap (fun it =>
           [synthSetupRep it,
            synthCallRep it ("Test did not run - " ++
              formatCrashMessage rc "during earlier test execution"
                (pyStrip stderrBytes)),
            synthTeardownRep it]),
         ((detectCrashedTests items results).1.filter
            (fun it => !it.xfail)).length +
           ((detectCrashedTests items results).2.filter
              (fun it => !it.xfail)).length,
         removeAll (removeAll results (detectCrashedTests items results).1)
           (detectCrashedTests items results).2)) ∧
    (∀ it, (it ∈ (detectCrashedTests items results).1 ∨
        it ∈ (detectCrashedTests items results).2) →
      alookup (handleMidTestCrash rc stderrBytes items results).2.2.2
        it.nodeid = none) ∧
    (∀ it, (it ∈ (detectCrashedTests items results).1 ∨
        it ∈ (detectCrashedTests items results).2) →
      ∀ r ∈ (emitAllResults items
          (handleMidTestCrash rc stderrBytes items results).2.2.2).1,
        r.nodeid ≠ it.nodeid) := by
  have hiff : ∀ it, it ∈ (detectCrashedTests items results).1 ↔
      (it ∈ items ∧
       (∃ r, alookup ((alookup results it.nodeid).getD []) Phase.setup = some r ∧
          r.outcome = Outcome.passed) ∧
       alookup ((alookup results it.nodeid).getD []) Phase.call = none) := by
    intro it
    have hm : it ∈ (detectCrashedTests items results).1 ↔
        (it ∈ items ∧ crashedPred results it = true) := by
      constructor
      · intro h
        exact ⟨List.mem_of_mem_filter h, List.of_mem_filter h⟩
      · intro h
        exact List.mem_filter.mpr ⟨h.1, h.2⟩
    rw [hm, crashedPred_iff]
  have hremoved : ∀ it, (it ∈ (detectCrashedTests items results).1 ∨
      it ∈ (detectCrashedTests items results).2) →
      alookup (handleMidTestCrash rc stderrBytes items results).2.2.2
        it.nodeid = none := by
    intro it hit
    by_cases hc : (detectCrashedTests items results).1 = []
    · rcases hit with h | h
      · rw [hc] at h
        cases h
      · rw [(handleMidTestCrash_no_crash rc stderrBytes items results hc).1] at h
        cases h
    · rw [handleMidTestCrash_spec rc stderrBytes items results hnd hc]
      rcases hit with h | h
      · rw [alookup_removeAll, alookup_removeAll]
        have : it.nodeid ∈ (detectCrashedTests items results).1.map (·.nodeid) :=
          List.mem_map_of_mem _ h
        simp [this]
      · rw [alookup_removeAll]
        have : it.nodeid ∈ (detectCrashedTests items results).2.map (·.nodeid) :=
          List.mem_map_of_mem _ h
        simp [this]
  refine ⟨hiff, fun hc => handleMidTestCrash_no_crash rc stderrBytes items results hc,
    fun hc => handleMidTestCrash_spec rc stderrBytes items results hnd hc,
    hremoved, ?_⟩
  intro it hit r hr hre
  have hmem := emitAll_nodeid_mem items _ r hr
  rw [hre] at hmem
  unfold amem at hmem
  rw [hremoved it hit] at hmem
  simp at hmem

/-- claim C4 (witness): mid-test crash handling at a concrete group
where `t1` crashed after a passed setup and `t2` never ran. -/
theorem mid_test_crash_handling_witness :
    (detectCrashedTests gC4items gC4results).1 = [⟨"t1", false⟩] ∧
    handleMidTestCrash (-9) "boom" gC4items gC4results =
      (true,
       [⟨"t1", .setup, .passed, "", 0, "", "", none, none, false⟩,
        ⟨"t1", .call, .failed,
          formatCrashMessage (-9) "during test execution" "boom", 0, "", "",
          none, none, false⟩,
        ⟨"t1", .teardown, .passed, "", 0, "", "", none, none, false⟩,
        ⟨"t2", .setup, .passed, "", 0, "", "", none, none, false⟩,
        ⟨"t2", .call, .failed,
          "Test did not run - " ++
            formatCrashMessage (-9) "during earlier test execution" "boom",
          0, "", "", none, none, false⟩,
        ⟨"t2", .teardown, .passed, "", 0, "", "", none, none, false⟩], 2, []) := by
  constructor
  · decide
  · have h := (mid_test_crash_handling gC4items gC4results (-9) "boom"
      (by decide)).2.2.1 (by decide)
    rw [h]
    rfl

/-- claim C10 (counterexample): a group meeting every stated
precondition — non-empty result set, no timeout, no crashed test — in
which the member `t2` has no recorded phases, yet a report for `t2` is
emitted, because the claim overlooks the xfail-crash override (negative
exit code, all tests xfail) which fires first and synthesizes reports
for every member. -/
theorem never_run_claim_counterexample :
    gC10cex.results ≠ [] ∧
    gC10cex.timedOut = false ∧
    (detectCrashedTests gC10cex.items gC10cex.results).1 = [] ∧
    (alookup gC10cex.results "t2") = none ∧
    (∃ r ∈ (processGroup gC10cex).1, r.nodeid = "t2") := by
  refine ⟨by decide, rfl, by decide, by decide, ?_⟩
  decide

/-- claim C10 (amended): under the stated preconditions — non-empty
result set, no timeout, no crashed test — and additionally that the
xfail-crash override does not fire (the exit code is non-negative or not
every test is marked xfail), a group member with no recorded phases at
all produces no replayed report whatsoever, and the group's failure
increments all come from failed call reports of other tests (the group's
count equals the number of failed call phases in its trace, none of
which belong to the member). -/
theorem never_run_without_crash (g : GroupRun) (it : Item)
    (hres : g.results ≠ []) (ht : g.timedOut = false)
    (hnocrash : (detectCrashedTests g.items g.results).1 = [])
    (hnofire : ¬(g.returncode < 0 ∧ g.items.all (·.xfail) = true))
    (_hit : it ∈ g.items) (habsent : alookup g.results it.nodeid = none) :
    (∀ r ∈ (processGroup g).1, r.nodeid ≠ it.nodeid) ∧
    (processGroup g).2 = countFailedCalls (processGroup g).1 := by
  have hx : handleXfailCrash g.returncode g.results g.items = none := by
    refine handleXfailCrash_not_fired _ _ _ ?_
    rintro ⟨h1, -, h3⟩
    exact hnofire ⟨h1, h3⟩
  have hto : handleTimeout g.timedOut g.name g.groupTimeout g.execTime
      g.items = none := by
    simp [handleTimeout, ht]
  have hcc : handleCollectionCrash g.returncode g.results g.name g.stderrBytes
      g.items = none := by
    simp [handleCollectionCrash, hres]
  have hmid := (handleMidTestCrash_no_crash g.returncode g.stderrBytes g.items
    g.results hnocrash).2
  have hpg : processGroup g =
      ((emitAllResults g.items g.results).1, (emitAllResults g.items g.results).2) := by
    unfold processGroup
    rw [hx, hto, hcc, hmid]
    simp
  rw [hpg]
  constructor
  · intro r hr hre
    have hmem := emitAll_nodeid_mem g.items g.results r hr
    rw [hre] at hmem
    unfold amem at hmem
    rw [habsent] at hmem
    simp at hmem
  · exact emitAllResults_fails g.items g.results

/-- claim C10 (witness): the amended statement at a concrete group where
`t1` is fully recorded, `t2` has no recorded phases, and the worker
exited with code 0. -/
theorem never_run_without_crash_witness :
    (∀ r ∈ (processGroup gC10w).1, r.nodeid ≠ "t2") ∧
    (processGroup gC10w).2 = countFailedCalls (processGroup gC10w).1 := by
  have h := never_run_without_crash gC10w ⟨"t2", false⟩ (by decide) rfl
    (by decide) (by decide) (by decide) (by decide)
  exact ⟨fun r hr => h.1 r hr, h.2⟩

/-- Membership unfolds to a successful lookup. -/
theorem amem_iff {α : Type} [DecidableEq α] {β : Type}
    (l : List (α × β)) (k : α) :
    amem l k = true ↔ ∃ v, alookup l k = some v := by
  unfold amem
  rcases h : alookup l k with _ | v <;> simp

/-- Lookup after a dict update. -/
theorem alookup_aset {α : Type} [DecidableEq α] {β : Type}
    (l : List (α × β)) (k : α) (v : β) (k' : α) :
    alookup (aset l k v) k' = if k = k' then some v else alookup l k' := by
  induction l with
  | nil => by_cases h : k = k' <;> simp [aset, alookup, h]
  | cons p rest ih =>
    by_cases h1 : p.1 = k <;> by_cases h2 : k = k' <;>
      simp_all [aset, alookup]

/-- Lookup after appending one fresh entry at the end. -/
theorem alookup_append_single {α : Type} [DecidableEq α] {β : Type}
    (l : List (α × β)) (k : α) (v : β) (k' : α) :
    alookup (l ++ [(k, v)]) k' =
      match alookup l k' with
      | some w => some w
      | none => if k = k' then some v else none := by
  induction l with
  | nil => simp [alookup]
  | cons p rest ih =>
    by_cases h1 : p.1 = k' <;> simp [alookup, h1, ih]

/-- Lookup after `setdefault(key, []).append(item)`. -/
theorem lookup_setdefaultAppend (gs : List (String × List CollectedItem))
    (key : String) (item : CollectedItem) (k' : String) :
    (alookup (setdefaultAppend gs key item) k').getD [] =
      if key = k' then (alookup gs k').getD [] ++ [item]
      else (alookup gs k').getD [] := by
  unfold setdefaultAppend
  rcases h : alookup gs key with _ | l
  · rw [alookup_append_single]
    by_cases h2 : key = k'
    · subst h2
      rw [h]
      simp [h]
    · by_cases h3 : (alookup gs k').isSome
      · rcases h4 : alookup gs k' with _ | w
        · rw [h4] at h3
          simp at h3
        · simp [h4, h2]
      · rcases h4 : alookup gs k' with _ | w
        · simp [h4, h2]
        · rw [h4] at h3
          simp at h3
  · rw [alookup_aset]
    by_cases h2 : key = k'
    · subst h2
      simp [h]
    · simp [h2]

/-- The group table built by the planner loop: under each key, the
planned items whose computed key is that key, in input order, appended
after whatever the accumulator already held. -/
theorem planLoop_groups_lookup (runAll : Bool) (items : List CollectedItem)
    (plan : GroupPlan) (key : String) :
    (alookup (planLoop runAll items plan).groups key).getD [] =
      (alookup plan.groups key).getD [] ++
        items.filter (fun it => isPlanned runAll it && (groupKeyOf it == key)) := by
  induction items generalizing plan with
  | nil => simp [planLoop]
  | cons item rest ih =>
    by_cases hp : isPlanned runAll item
    · have hstep : planLoop runAll (item :: rest) plan =
          planLoop runAll rest (planStep plan item) := by
        simp [planLoop, hp]
      rw [hstep, ih]
      by_cases hk : groupKeyOf item = key
      · have : (alookup (planStep plan item).groups key).getD [] =
            (alookup plan.groups key).getD [] ++ [item] := by
          unfold planStep
          simp only
          rw [lookup_setdefaultAppend, if_pos hk]
        rw [this]
        simp [List.filter_cons, hp, hk]
      · have : (alookup (planStep plan item).groups key).getD [] =
            (alookup plan.groups key).getD [] := by
          unfold planStep
          simp only
          rw [lookup_setdefaultAppend, if_neg hk]
        rw [this]
        have hb : (groupKeyOf item == key) = false := by
          simp [hk]
        simp [List.filter_cons, hb]
    · have hstep : planLoop runAll (item :: rest) plan =
          planLoop runAll rest plan := by
        simp [planLoop, hp]
      have hb : isPlanned runAll item = false := by
        simp [Bool.not_eq_true] at hp
        exact hp
      rw [hstep, ih]
      simp [List.filter_cons, hb]

/-- The timeout table built by the planner loop: the first planned item
encountered for a key fixes that key's override; later items never
change it. -/
theorem planLoop_timeouts_lookup (runAll : Bool) (items : List CollectedItem)
    (plan : GroupPlan) (key : String) :
    alookup (planLoop runAll items plan).timeouts key =
      match alookup plan.timeouts key with
      | some v => some v
      | none =>
        (items.find? (fun it => isPlanned runAll it && (groupKeyOf it == key))).map
          (fun it => it.marker.bind (·.kwTimeout)) := by
  induction items generalizing plan with
  | nil =>
    rcases h : alookup plan.timeouts key with _ | v <;> simp [planLoop, h]
  | cons item rest ih =>
    by_cases hp : isPlanned runAll item
    · have hstep : planLoop runAll (item :: rest) plan =
          planLoop runAll rest (planStep plan item) := by
        simp [planLoop, hp]
      rw [hstep, ih]
      by_cases hk : groupKeyOf item = key
      · subst hk
        by_cases hmem : amem plan.timeouts (groupKeyOf item)
        · have hts : (planStep plan item).timeouts = plan.timeouts := by
            unfold planStep
            simp only [hmem, if_true, ite_true]
          rw [hts]
          obtain ⟨v, hv⟩ := (amem_iff plan.timeouts (groupKeyOf item)).mp hmem
          rw [hv]
        · have hnone : alookup plan.timeouts (groupKeyOf item) = none := by
            rcases h : alookup plan.timeouts (groupKeyOf item) with _ | v
            · rfl
            · exact absurd ((amem_iff plan.timeouts (groupKeyOf item)).mpr
                ⟨v, h⟩) hmem
          have hts : (planStep plan item).timeouts =
              plan.timeouts ++ [(groupKeyOf item, item.marker.bind (·.kwTimeout))] := by
            unfold planStep
            simp only [hmem, if_false, ite_false, Bool.false_eq_true, reduceIte]
          rw [hts, alookup_append_single, hnone]
          simp [List.find?_cons, hp]
      · have hts : alookup (planStep plan item).timeouts key =
            alookup plan.timeouts key := by
          unfold planStep
          by_cases hmem : amem plan.timeouts (groupKeyOf item)
          · simp only [hmem, if_true, ite_true]
          · simp only [hmem, if_false, ite_false, Bool.false_eq_true, reduceIte]
            rw [alookup_append_single]
            rcases h : alookup plan.timeouts key with _ | v
            · simp [hk]
            · simp
        rw [hts]
        have hb : (groupKeyOf item == key) = false := by
          simp [hk]
        rcases h : alookup plan.timeouts key with _ | v <;>
          simp [h, List.find?_cons, hb]
    · have hstep : planLoop runAll (item :: rest) plan =
          planLoop runAll rest plan := by
        simp [planLoop, hp]
      have hb : isPlanned runAll item = false := by
        simp [Bool.not_eq_true] at hp
        exact hp
      rw [hstep, ih]
      rcases h : alookup plan.timeouts key with _ | v <;>
        simp [h, List.find?_cons, hb]

/-- claim C5: the group key follows the stated precedence — an explicit
group name on the marker (positional, else keyword) wins; otherwise an
item with its own directly-applied marker keys by its own nodeid; else a
class-level marker keys by the module::class identifier; else a
module-level marker keys by the module identifier; else the item's own
nodeid — and every planned item lands exactly once in exactly the group
of its key. -/
theorem group_key_assignment (runAll : Bool) (items : List CollectedItem)
    (hnd : items.Nodup) :
    (∀ item : CollectedItem,
      (∀ m g, item.marker = some m → m.argGroup = some g →
        groupKeyOf item = g) ∧
      (∀ m g, item.marker = some m → m.argGroup = none → m.kwGroup = some g →
        groupKeyOf item = g) ∧
      (∀ m, item.marker = some m → m.argGroup = none → m.kwGroup = none →
        item.isFunction = true → item.ownIsolated = true →
        groupKeyOf item = item.nodeid) ∧
      (∀ m, item.marker = some m → m.argGroup = none → m.kwGroup = none →
        item.isFunction = true → item.ownIsolated = false →
        item.clsIsolated = true → 3 ≤ (nodeidParts item.nodeid).length →
        groupKeyOf item =
          String.intercalate "::" ((nodeidParts item.nodeid).take 2)) ∧
      (∀ m, item.marker = some m → m.argGroup = none → m.kwGroup = none →
        item.isFunction = true → item.ownIsolated = false →
        item.clsIsolated = false → item.moduleIsolated = true →
        groupKeyOf item = (nodeidParts item.nodeid).headD item.nodeid) ∧
      (∀ m, item.marker = some m → m.argGroup = none → m.kwGroup = none →
        item.isFunction = true → item.ownIsolated = false →
        item.clsIsolated = false → item.moduleIsolated = false →
        groupKeyOf item = item.nodeid) ∧
      (item.marker = none → groupKeyOf item = item.nodeid)) ∧
    (∀ item ∈ items, isPlanned runAll item = true →
      ((alookup (planGroups runAll items).groups (groupKeyOf item)).getD
        []).count item = 1 ∧
      ∀ key, key ≠ groupKeyOf item →
        item ∉ (alookup (planGroups runAll items).groups key).getD []) := by
  constructor
  · intro item
    refine ⟨?_, ?_, ?_, ?_, ?_, ?_, ?_⟩
    · intro m g hm ha
      simp [groupKeyOf, hm, ha]
    · intro m g hm ha hkw
      simp [groupKeyOf, hm, ha, hkw]
    · intro m hm ha hkw hfun hown
      simp [groupKeyOf, hm, ha, hkw, hfun, hown]
    · intro m hm ha hkw hfun hown hcls hlen
      simp [groupKeyOf, hm, ha, hkw, hfun, hown, hcls, hlen]
    · intro m hm ha hkw hfun hown hcls hmod
      simp [groupKeyOf, hm, ha, hkw, hfun, hown, hcls, hmod]
    · intro m hm ha hkw hfun hown hcls hmod
      simp [groupKeyOf, hm, ha, hkw, hfun, hown, hcls, hmod]
    · intro hm
      simp [groupKeyOf, hm]
  · intro item hit hp
    have hlk : ∀ key, (alookup (planGroups runAll items).groups key).getD [] =
        items.filter (fun it => isPlanned runAll it && (groupKeyOf it == key)) := by
      intro key
      have h := planLoop_groups_lookup runAll items ⟨[], []⟩ key
      simpa [planGroups, alookup] using h
    constructor
    · rw [hlk]
      have hpred : (isPlanned runAll item &&
          (groupKeyOf item == groupKeyOf item)) = true := by
        simp [hp]
      have hcf : (items.filter (fun it => isPlanned runAll it &&
          (groupKeyOf it == groupKeyOf item))).count item = items.count item :=
        List.count_filter hpred
      exact hcf.trans (List.count_eq_one_of_mem hnd hit)
    · intro key hne hmem
      rw [hlk key] at hmem
      have hpred := List.of_mem_filter hmem
      simp only [Bool.and_eq_true, beq_iff_eq] at hpred
      exact hne hpred.2.symm

/-- claim C5 (witness): the precedence at four concrete items — an
explicit positional group, an own-marker function, a class-marked
method, a module-marked function — plus unique membership for the
class-marked one. -/
theorem group_key_assignment_witness :
    groupKeyOf gC5it1 = "grp" ∧
    groupKeyOf gC5it2 = "test_a.py::test_two" ∧
    groupKeyOf gC5it3 = "test_a.py::TestC" ∧
    groupKeyOf gC5it4 = "test_a.py" ∧
    ((alookup (planGroups false gC5items).groups (groupKeyOf gC5it3)).getD
      []).count gC5it3 = 1 := by
  have h := group_key_assignment false gC5items (by decide)
  refine ⟨?_, ?_, ?_, ?_, (h.2 gC5it3 (by decide) (by decide)).1⟩
  · exact (h.1 gC5it1).1 ⟨some "grp", none, none⟩ "grp" rfl rfl
  · exact (h.1 gC5it2).2.2.1 ⟨none, none, none⟩ rfl rfl rfl rfl rfl
  · have hk := (h.1 gC5it3).2.2.2.1 ⟨none, none, none⟩ rfl rfl rfl rfl rfl rfl
      (by decide)
    rw [hk]
    decide
  · have hk := (h.1 gC5it4).2.2.2.2.1 ⟨none, none, none⟩ rfl rfl rfl rfl rfl rfl
      rfl
    rw [hk]
    decide

/-- claim C6: the stored override for a group is the marker timeout of
the first-encountered planned item for that key (later markers never
change it), and resolution picks, in order: a positive stored marker
timeout, else the command-line option, else the configuration default,
else the hardcoded 300. -/
theorem timeout_resolution (runAll : Bool) (items : List CollectedItem)
    (timeoutOpt timeoutIni : Option Int) (key : String) :
    alookup (planGroups runAll items).timeouts key =
      (items.find? (fun it => isPlanned runAll it && (groupKeyOf it == key))).map
        (fun it => it.marker.bind (·.kwTimeout)) ∧
    (∀ t : Int, 0 < t →
      alookup (planGroups runAll items).timeouts key = some (some t) →
      resolveGroupTimeout (planGroups runAll items).timeouts timeoutOpt
        timeoutIni key = t) ∧
    (∀ c : Int, 0 < c → timeoutOpt = some c →
      (alookup (planGroups runAll items).timeouts key).join = none →
      resolveGroupTimeout (planGroups runAll items).timeouts timeoutOpt
        timeoutIni key = c) ∧
    (∀ i : Int, 0 < i → timeoutOpt = none → timeoutIni = some i →
      (alookup (planGroups runAll items).timeouts key).join = none →
      resolveGroupTimeout (planGroups runAll items).timeouts timeoutOpt
        timeoutIni key = i) ∧
    (timeoutOpt = none → timeoutIni = none →
      (alookup (planGroups runAll items).timeouts key).join = none →
      resolveGroupTimeout (planGroups runAll items).timeouts timeoutOpt
        timeoutIni key = 300) := by
  refine ⟨?_, ?_, ?_, ?_, ?_⟩
  · have h := planLoop_timeouts_lookup runAll items ⟨[], []⟩ key
    simpa [planGroups, alookup] using h
  · intro t ht hstore
    have hne : t ≠ 0 := by omega
    unfold resolveGroupTimeout
    rw [hstore]
    simp [pyOrInt, hne]
  · intro c hc hopt hjoin
    have hne : c ≠ 0 := by omega
    unfold resolveGroupTimeout
    rw [hjoin]
    simp [pyOrInt, defaultTimeoutOf, hopt, hne]
  · intro i hi hopt hini hjoin
    have hne : i ≠ 0 := by omega
    unfold resolveGroupTimeout
    rw [hjoin]
    simp [pyOrInt, defaultTimeoutOf, hopt, hini, hne]
  · intro hopt hini hjoin
    unfold resolveGroupTimeout
    rw [hjoin]
    simp [pyOrInt, defaultTimeoutOf, hopt, hini]

/-- claim C6 (witness): resolution at a concrete plan in which the first
marker for group "g" set timeout 5 and a later marker tried 9: marker
wins over CLI, CLI over ini, ini over the 300 default. -/
theorem timeout_resolution_witness :
    alookup (planGroups false gC6items).timeouts "g" = some (some 5) ∧
    resolveGroupTimeout (planGroups false gC6items).timeouts (some 100) (some 60)
      "g" = 5 ∧
    resolveGroupTimeout (planGroups false gC6items).timeouts (some 100) (some 60)
      "h" = 100 ∧
    resolveGroupTimeout (planGroups false gC6items).timeouts none (some 60)
      "h" = 60 ∧
    resolveGroupTimeout (planGroups false gC6items).timeouts none none "h" = 300 := by
  have h := timeout_resolution false gC6items (some 100) (some 60) "g"
  have h2 := timeout_resolution false gC6items (some 100) (some 60) "h"
  have h3 := timeout_resolution false gC6items none (some 60) "h"
  have h4 := timeout_resolution false gC6items none none "h"
  refine ⟨?_, ?_, ?_, ?_, ?_⟩
  · rw [h.1]
    decide
  · exact h.2.1 5 (by decide) (by rw [h.1]; decide)
  · exact h2.2.2.1 100 (by decide) rfl (by rw [h2.1]; decide)
  · exact h3.2.2.2.1 60 (by decide) rfl rfl (by rw [h3.1]; decide)
  · exact h4.2.2.2.2 rfl rfl (by rw [h4.1]; decide)

/-- The group loop stops right after the first group that both runs to
the end of the loop body (is not ended by one of the three `continue`
statements) and finds the failure count at the threshold: that group
completes, the remaining groups are never launched.  Groups ended by a
`continue` never reach the check, whatever their count. -/
theorem runGroupsLoop_early (maxfail : Nat) (pre : List GroupRun) (g : GroupRun)
    (rest : List GroupRun) (tf0 : Nat) (hmax : 0 < maxfail)
    (hbelow : ∀ i, ∀ hi : i < pre.length,
      groupContinued (pre.get ⟨i, hi⟩) = true ∨
        tfAfter (pre.take (i + 1)) tf0 < maxfail)
    (hg : groupContinued g = false)
    (hreach : maxfail ≤ tfAfter (pre ++ [g]) tf0) :
    runGroupsLoop maxfail (pre ++ g :: rest) tf0 =
      (tfAfter (pre ++ [g]) tf0, pre ++ [g], true) := by
  induction pre generalizing tf0 with
  | nil =>
    have hr : maxfail ≤ tf0 + (processGroup g).2 := by
      simpa [tfAfter] using hreach
    have hcond : groupContinued g = false ∧ tf0 + (processGroup g).2 ≠ 0 ∧
        maxfail ≠ 0 ∧ maxfail ≤ tf0 + (processGroup g).2 :=
      ⟨hg, by omega, by omega, hr⟩
    have hloop : runGroupsLoop maxfail ([] ++ g :: rest) tf0 =
        (if (groupContinued g = false ∧ tf0 + (processGroup g).2 ≠ 0 ∧
            maxfail ≠ 0 ∧ maxfail ≤ tf0 + (processGroup g).2)
         then (tf0 + (processGroup g).2, [g], true)
         else ((runGroupsLoop maxfail rest (tf0 + (processGroup g).2)).1,
           g :: (runGroupsLoop maxfail rest (tf0 + (processGroup g).2)).2.1,
           (runGroupsLoop maxfail rest (tf0 + (processGroup g).2)).2.2)) := rfl
    rw [hloop, if_pos hcond]
    simp [tfAfter]
  | cons p pre' ih =>
    have hnofire : ¬(groupContinued p = false ∧ tf0 + (processGroup p).2 ≠ 0 ∧
        maxfail ≠ 0 ∧ maxfail ≤ tf0 + (processGroup p).2) := by
      rintro ⟨h1, -, -, h4⟩
      rcases hbelow 0 (by simp) with hc | hlt
      · simp only [List.get] at hc
        rw [h1] at hc
        cases hc
      · have : tf0 + (processGroup p).2 < maxfail := by
          simpa [tfAfter] using hlt
        omega
    have hstep : tfAfter ((p :: pre') ++ [g]) tf0 =
        tfAfter (pre' ++ [g]) (tf0 + (processGroup p).2) := rfl
    have hbelow' : ∀ i, ∀ hi : i < pre'.length,
        groupContinued (pre'.get ⟨i, hi⟩) = true ∨
          tfAfter (pre'.take (i + 1)) (tf0 + (processGroup p).2) < maxfail := by
      intro i hi
      rcases hbelow (i + 1) (by simpa using Nat.succ_lt_succ hi) with hc | hlt
      · left
        simpa using hc
      · right
        simpa [List.take_succ_cons, tfAfter] using hlt
    have hreach' : maxfail ≤ tfAfter (pre' ++ [g]) (tf0 + (processGroup p).2) := by
      rw [← hstep]
      exact hreach
    have hloop : runGroupsLoop maxfail ((p :: pre') ++ g :: rest) tf0 =
        (if (groupContinued p = false ∧ tf0 + (processGroup p).2 ≠ 0 ∧
            maxfail ≠ 0 ∧ maxfail ≤ tf0 + (processGroup p).2)
         then (tf0 + (processGroup p).2, [p], true)
         else ((runGroupsLoop maxfail (pre' ++ g :: rest)
             (tf0 + (processGroup p).2)).1,
           p :: (runGroupsLoop maxfail (pre' ++ g :: rest)
             (tf0 + (processGroup p).2)).2.1,
           (runGroupsLoop maxfail (pre' ++ g :: rest)
             (tf0 + (processGroup p).2)).2.2)) := rfl
    rw [hloop, if_neg hnofire, ih _ hbelow' hreach', hstep]
    rfl

/-- claim C8 (counterexample): the check is not made after every group —
a timed-out group whose synthesized failure reaches the maxfail
threshold ends in the `continue` at `execution.py` line 508, which jumps
past the maxfail check of lines 523-529: the next group is launched and
the native item still runs, contradicting the claim's "launches no
further groups ... immediately" after any group. -/
theorem maxfail_check_skipped_counterexample :
    1 ≤ tfAfter [gC2w] 0 ∧
    groupContinued gC2w = true ∧
    runTestLoopModel 1 [gC2w, gC3case] ["n1"] 0 =
      (1, [gC2w, gC3case], ["n1"], 1) := by
  refine ⟨by decide, by decide, ?_⟩
  rfl

/-- claim C8 (amended): with a configured maximum-failure threshold, the
maxfail check is made only at group boundaries and only for a group
whose loop body ran to the end (not ended by the xfail-crash, timeout,
or collection-crash `continue`): once such a group's reconciliation
completes with the aggregate failure count at the threshold — and no
earlier group tripped the check, each being either continued past it or
still below the threshold — the orchestrator launches no further group,
runs no native item, and returns status 1 immediately; the crossing
group is processed to completion and appears as the last launched
group. -/
theorem maxfail_early_exit (maxfail : Nat) (pre : List GroupRun) (g : GroupRun)
    (rest : List GroupRun) (normalItems : List String) (tf0 : Nat)
    (hmax : 0 < maxfail)
    (hbelow : ∀ i, ∀ hi : i < pre.length,
      groupContinued (pre.get ⟨i, hi⟩) = true ∨
        tfAfter (pre.take (i + 1)) tf0 < maxfail)
    (hg : groupContinued g = false)
    (hreach : maxfail ≤ tfAfter (pre ++ [g]) tf0) :
    runTestLoopModel maxfail (pre ++ g :: rest) normalItems tf0 =
      (1, pre ++ [g], [], tfAfter (pre ++ [g]) tf0) := by
  unfold runTestLoopModel
  rw [runGroupsLoop_early maxfail pre g rest tf0 hmax hbelow hg hreach]
  rfl

/-- claim C8 (witness): with maxfail 1, a first group whose single test
fails during normal replay (so its body reaches the check) stops the
run: the second group is not launched, the native item is not run, the
status is 1. -/
theorem maxfail_early_exit_witness :
    groupContinued gC8w = false ∧
    runTestLoopModel 1 [gC8w, gC3case] ["n1"] 0 = (1, [gC8w], [], 1) := by
  have h := maxfail_early_exit 1 [] gC8w [gC3case] ["n1"] 0 (by decide)
    (by intro i hi; simp at hi) (by decide) (by decide)
  exact ⟨by decide, by simpa using h⟩

/-- Decoding a serialized string list recovers it. -/
theorem mapM_asStr_map (l : List String) :
    mapOption asStr (l.map JVal.jstr) = some l := by
  induction l with
  | nil => rfl
  | cons x xs ih => simp [mapOption, asStr, ih]

/-- Decoding a serialized pair list recovers it. -/
theorem mapM_asPair_map (l : List (String × String)) :
    mapOption asPair
      (l.map (fun p => JVal.jarr [JVal.jstr p.1, JVal.jstr p.2])) = some l := by
  induction l with
  | nil => rfl
  | cons x xs ih => simp [mapOption, asPair, ih]

/-- claim C9: encoding a phase record as the side-channel JSON object
written by `pytest_runtest_logreport` and reading it back as the typed
record consumed after `_parse_results` is the identity — every field
(nodeid, when, outcome, longrepr, duration, stdout, stderr, keywords,
sections, user_properties, wasxfail) is preserved, including
empty-string and empty-list fields.  The text layer between the object
and the line is the standard library's `json.dumps`/`json.loads`,
treated as a faithful pairing. -/
theorem record_roundtrip (r : TestRecord) :
    decodeRecord (encodeRecord r) = some r := by
  cases r with
  | mk nodeid w outcome longrepr duration stdout stderr keywords sections
      userProps wasxfail =>
    cases w <;> cases outcome <;>
      simp [decodeRecord, encodeRecord, alookup, asStr, asNum, asBool, asArr,
        phaseOfName, outcomeOfName, phaseName, outcomeName, mapM_asStr_map,
        mapM_asPair_map, Option.bind]
